import Mathlib

/-!
# Verification of the `mujoco_blueprints` graph-identity core

This file gives a shallow embedding, in Lean 4, of the parts of the
`mujoco_blueprints` library that its specification makes claims about:

* the copy-on-write shared-resource mechanism
  (`mujoco_blueprints/thing/unique.py`),
* the broadcast view layer (`mujoco_blueprints/utils/view.py`),
* the label-uniqueness resolver (`mujoco_blueprints/utils/naming.py`),
* the node ownership graph: `attach` / `detach` / `copy`
  (`mujoco_blueprints/thing/node.py`, `thing/base.py`),
* the cross-reference migration protocol
  (`mujoco_blueprints/thing/cyclical.py`),

and proves or refutes the specified properties against that embedding.

Python objects are represented by numeric ids living in explicit
association-list heaps; raising an exception is represented by an
`Except` result whose error value carries the state at the moment of
the raise (a Python exception does not roll mutations back).  Python
`while` loops and recursions over the heap take an explicit fuel
argument; running out of fuel is a `stuck` outcome that only occurs on
heaps a real run could not reach (or on which it would not terminate),
and every theorem below either quantifies over concrete well-formed
states or carries hypotheses ruling `stuck` out.
-/

set_option autoImplicit false

namespace MB

/-- Association-list lookup (first binding wins), used for every id ↦ object
heap in the embedding. -/
def assocFind {α : Type} : List (Nat × α) → Nat → Option α
  | [], _ => none
  | (k', v) :: rest, k => if k' = k then some v else assocFind rest k

/-- Association-list update: replaces the first binding of `k`, or appends a
new binding at the end. -/
def assocSet {α : Type} : List (Nat × α) → Nat → α → List (Nat × α)
  | [], k, v => [(k, v)]
  | (k', v') :: rest, k, v =>
    if k' = k then (k, v) :: rest else (k', v') :: assocSet rest k v

/-- Python `list.index` for members (`NameScope.name` uses it on a list that
contains the element, so the out-of-list value is irrelevant). -/
def idxOfN (a : Nat) : List Nat → Nat
  | [] => 0
  | b :: l => if b = a then 0 else idxOfN a l + 1

/-! ## Copy-on-write shared resources (`thing/unique.py`, `UniqueThing`)

A `UniqueThing` holds a payload, a set `_references` of owner nodes, and a
`freeze` flag.  Each owner node stores the resource under an attribute named
by `_REFERENCE_NAME` (e.g. `cache`); that attribute is the `cacheOf` map
below.  `_references` is a Python `set`; only membership and cardinality are
observed, so a duplicate-free list represents it. -/

structure Resource where
  payload : Nat
  refs : List Nat
  freeze : Bool
  deriving Repr, DecidableEq

structure CowState where
  res : List (Nat × Resource)
  cacheOf : List (Nat × Nat)
  next : Nat
  deriving Repr, DecidableEq

/-- `UniqueThing._remove(thing)`: drop `node` from the resource's
`_references` if present. -/
def cowRemove (st : CowState) (rid node : Nat) : CowState :=
  match assocFind st.res rid with
  | none => st
  | some r =>
    if node ∈ r.refs then
      { st with res := assocSet st.res rid { r with refs := r.refs.erase node } }
    else st

/-- `UniqueThing._add(thing)`: if `node` is not yet an owner, first remove it
from the resource its reference attribute currently points at, then add it to
this resource's `_references` and point the attribute here. -/
def cowAdd (st : CowState) (rid node : Nat) : CowState :=
  match assocFind st.res rid with
  | none => st
  | some r =>
    if node ∈ r.refs then st
    else
      let st1 :=
        match assocFind st.cacheOf node with
        | some rid' => cowRemove st rid' node
        | none => st
      match assocFind st1.res rid with
      | none => st1
      | some r1 =>
        { st1 with
          res := assocSet st1.res rid { r1 with refs := r1.refs ++ [node] },
          cacheOf := assocSet st1.cacheOf node rid }

/-- `BaseThing.copy` applied to a `UniqueThing`: a fresh resource with the
same payload; `__init__` starts it with an empty `_references` set and
`freeze = False`. -/
def cowCopy (st : CowState) (rid : Nat) : CowState × Nat :=
  match assocFind st.res rid with
  | none => (st, st.next)
  | some r =>
    ({ st with
        res := st.res ++ [(st.next, { payload := r.payload, refs := [], freeze := false })],
        next := st.next + 1 },
      st.next)

inductive CowErr where
  | assertFail
  deriving Repr, DecidableEq

/-- `UniqueThing._prepare_for_modification(parent)`.  The two leading
`assert` statements become the guards; the body copies and transfers
ownership when the resource has more than one owner and is not frozen.  The
Python function body contains **no `return` statement**, so the call always
evaluates to `None`: the first component of the result is the returned value
and is `none` on every path. -/
def prepareForModification (st : CowState) (rid parent : Nat) :
    Except CowErr (Option Nat × CowState) :=
  match assocFind st.res rid with
  | none => .error .assertFail
  | some r =>
    if assocFind st.cacheOf parent ≠ some rid then .error .assertFail
    else if parent ∉ r.refs then .error .assertFail
    else if 1 < r.refs.length ∧ r.freeze = false then
      let p := cowCopy st rid
      .ok (none, cowAdd p.1 p.2 parent)
    else
      .ok (none, st)

/-- A shared resource with payload 5 owned by nodes 10 and 11. -/
def cowTwoOwners : CowState :=
  { res := [(0, { payload := 5, refs := [10, 11], freeze := false })],
    cacheOf := [(10, 0), (11, 0)],
    next := 1 }

/-! ## The broadcast view layer (`utils/view.py`, `View`)

A `View` batches attribute access over a list of elements.  For the claims
below only plain (non-`Thing`, non-callable) attribute values occur, so a
value is `none`, an integer, a string, a list, or a nested `View`; an element
is a plain attribute record.  NumPy arrays do not occur in this value
universe, so the `np.ndarray` branches of `View.__setattr__` /
`View.__nesting_structure` are never taken and are omitted. -/

inductive Val where
  | vnone : Val
  | int : Int → Val
  | str : String → Val
  | vlist : List Val → Val
  | vview : List Val → Val
  deriving Repr

/-- `View.__nesting_structure`: a value's nesting shape.  Scalars map to
their class, lists map to the list of their members' shapes, and a `View`
is first converted to the list of its elements. -/
inductive Struct where
  | noneCls : Struct
  | intCls : Struct
  | strCls : Struct
  | slist : List Struct → Struct
  deriving Repr

mutual

/-- Python `==` on values (used only to state theorems). -/
def valBeq : Val → Val → Bool
  | .vnone, .vnone => true
  | .int a, .int b => a == b
  | .str a, .str b => a == b
  | .vlist xs, .vlist ys => valsBeq xs ys
  | .vview xs, .vview ys => valsBeq xs ys
  | _, _ => false

def valsBeq : List Val → List Val → Bool
  | [], [] => true
  | x :: xs, y :: ys => valBeq x y && valsBeq xs ys
  | _, _ => false

end

mutual

/-- Python `==` on nesting shapes (classes compare equal to themselves,
lists compare elementwise). -/
def structBeq : Struct → Struct → Bool
  | .noneCls, .noneCls => true
  | .intCls, .intCls => true
  | .strCls, .strCls => true
  | .slist xs, .slist ys => structsBeq xs ys
  | _, _ => false

def structsBeq : List Struct → List Struct → Bool
  | [], [] => true
  | x :: xs, y :: ys => structBeq x y && structsBeq xs ys
  | _, _ => false

end

mutual

/-- `View.__nesting_structure` (the `np.ndarray` branch cannot fire in this
value universe). -/
def nestingStructure : Val → Struct
  | .vnone => .noneCls
  | .int _ => .intCls
  | .str _ => .strCls
  | .vlist xs => .slist (nestingStructures xs)
  | .vview xs => .slist (nestingStructures xs)

def nestingStructures : List Val → List Struct
  | [] => []
  | x :: xs => nestingStructure x :: nestingStructures xs

end

/-- `View.__compatible_nesting(view_structure, val_structure)`: false when the
value's shape is a bare class (no `__len__`) or a string shape; false on a
length mismatch; false when the view's shape is neither a member of the
value's shape nor equal to it; true otherwise. -/
def compatibleNesting (viewS valS : Struct) : Bool :=
  match valS with
  | .slist l =>
    match viewS with
    | .slist v =>
      (l.length == v.length) && (l.any (structBeq viewS) || structBeq valS viewS)
    | _ => false
  | _ => false

/-- Iterating a Python list or `View` yields its members; iterating anything
else in this universe is a `TypeError` (never reached under
`compatibleNesting`). -/
def valItems : Val → Option (List Val)
  | .vlist xs => some xs
  | .vview xs => some xs
  | _ => none

inductive VErr where
  | emptyView
  | attrMissing
  | sizeMismatch
  | stuck
  deriving Repr, DecidableEq

/-- `View.__nesting_value(view_attr, val)`: the per-element assignment plan.
`n` is `len(self)`.  The first (`np.ndarray`) branch cannot fire here.  A
compatible shape returns `val` itself, to be zipped one-to-one; an
incompatible `View` of size one broadcasts its single member; an incompatible
`View` of any other size raises `ValueError`; anything else is repeated once
per entry of the view's shape (one-to-many). -/
def nestingValue (n : Nat) (viewAttr val : Val) : Except VErr (List Val) :=
  let viewS := nestingStructure viewAttr
  let valS := nestingStructure val
  if compatibleNesting viewS valS then
    match valItems val with
    | some xs => .ok xs
    | none => .error .stuck
  else
    match val with
    | .vview xs =>
      if xs.length ≠ 1 then .error .sizeMismatch
      else .ok (List.replicate n (xs.headD .vnone))
    | _ =>
      match viewS with
      | .slist v => .ok (List.replicate v.length val)
      | _ => .error .stuck

/-- An element of a `View`, as its record of plain attributes. -/
abbrev Elem := List (String × Val)

def hasAttr (e : Elem) (a : String) : Bool :=
  e.any (fun p => p.1 == a)

def getAttr (e : Elem) (a : String) : Val :=
  match e.find? (fun p => p.1 == a) with
  | some p => p.2
  | none => .vnone

def setAttr (e : Elem) (a : String) (v : Val) : Elem :=
  if hasAttr e a then e.map (fun p => if p.1 == a then (p.1, v) else p)
  else e ++ [(a, v)]

def isView : Val → Bool
  | .vview _ => true
  | _ => false

def isNone : Val → Bool
  | .vnone => true
  | _ => false

/-- The result of `View.__getattr__` in this value universe: either a new
`View` (when every element exposed the attribute as a `View`) or the plain
list of values. -/
inductive GetRes where
  | viewR : List Val → GetRes
  | values : List Val → GetRes
  deriving Repr

/-- `View.__getattr__`: fails on an empty view; if some element lacks the
attribute the fallback re-raises `AttributeError`; if every value is a
`View` the flattened union is returned as a view; if every value is `None`
a list of `None`s is returned; `Thing`-valued and callable attributes do not
occur in this universe; otherwise the plain list of values is returned. -/
def viewGetattr (elems : List Elem) (attr : String) : Except VErr GetRes :=
  if elems.length == 0 then .error .emptyView
  else if elems.all (fun e => hasAttr e attr) then
    let vals := elems.map (fun e => getAttr e attr)
    if vals.all isView then
      .ok (.viewR (vals.foldr (fun v acc => (valItems v).getD [] ++ acc) []))
    else if vals.all isNone then
      .ok (.values (List.replicate vals.length .vnone))
    else
      .ok (.values vals)
  else .error .attrMissing

/-- The `zip(self, ...)` assignment loop of `View.__setattr__`: element `i`
receives plan entry `i`; surplus elements (or surplus plan entries) are left
alone, as `zip` truncates. -/
def zipAssign (attr : String) : List Elem → List Val → List Elem
  | [], _ => []
  | es, [] => es
  | e :: es, v :: vs => setAttr e attr v :: zipAssign attr es vs

/-- `View.__setattr__` (for a non-reserved attribute): read the current
aggregate with `__getattr__`, compute the assignment plan with
`__nesting_value`, and assign elementwise. -/
def viewSetattr (elems : List Elem) (attr : String) (val : Val) :
    Except VErr (List Elem) :=
  match viewGetattr elems attr with
  | .error e => .error e
  | .ok res =>
    let viewAttr : Val :=
      match res with
      | .viewR xs => .vview xs
      | .values xs => .vlist xs
    match nestingValue elems.length viewAttr val with
    | .error e => .error e
    | .ok plan => .ok (zipAssign attr elems plan)

/-- Spec-side shape match, written from the spec's words: the value's shape
structurally matches the current get-result's shape (same length, matching
nested shapes) — i.e. the two shapes are equal. -/
def shapeMatches (viewS valS : Struct) : Bool :=
  structBeq valS viewS

/-- Amended condition under which the implementation zips one-to-one: the
value's shape is list-like of the same length, and either equals the view's
shape or contains it as a member. -/
def zipCondition (viewS valS : Struct) : Bool :=
  match viewS, valS with
  | .slist v, .slist l =>
    (l.length == v.length) && (l.any (structBeq viewS) || structBeq valS viewS)
  | _, _ => false

/-- A plain scalar value (the claims' "plain (scalar) values"). -/
def isScalar : Val → Bool
  | .int _ => true
  | .str _ => true
  | _ => false

/-! ## The name authority (`utils/naming.py`, `TypeScope` / `NameScope`)

A `TypeScope` holds, in insertion order, the descendants of one concrete
kind.  Each descendant has a user label (`_name`, never changed by
registration) and an optional `_name_scope`; a `NameScope` stores the group's
name and its members in order.  `BaseThing.name` reads the exposed name
through the scope. -/

structure NScope where
  sname : String
  members : List Nat
  deriving Repr, DecidableEq

abbrev ScopeMap := List (Nat × NScope)

/-- `BaseThing.name`: with no scope, the raw label; through a scope,
`NameScope.name` — the group name for a singleton group, and
`name + "_(" + index + ")"` otherwise, the index being the member's position
in the group. -/
def exposedName (labels : List (Nat × String)) (scopes : ScopeMap) (d : Nat) : String :=
  match assocFind scopes d with
  | some sc =>
    if sc.members.length == 1 then sc.sname
    else sc.sname ++ "_(" ++ toString (idxOfN d sc.members) ++ ")"
  | none => (assocFind labels d).getD ""

/-- One step of `defaultdict(list)` grouping: append `d` to the group keyed
by `key`, creating the group at the end on first sight (Python dicts preserve
insertion order). -/
def insertGrp (key : String) (d : Nat) : List (String × List Nat) → List (String × List Nat)
  | [] => [(key, [d])]
  | (k, ms) :: rest =>
    if k == key then (k, ms ++ [d]) :: rest else (k, ms) :: insertGrp key d rest

/-- `TypeScope.synonyms`: group the descendants, in order, by their current
exposed name. -/
def groupByName (name : Nat → String) (ds : List Nat) : List (String × List Nat) :=
  ds.foldl (fun gs d => insertGrp (name d) d gs) []

/-- `NameScope.__init__` / `NameScope.register`: point every member of the
group at a scope carrying the group's name and member list. -/
def assignGroup (scopes : ScopeMap) (gname : String) (mems : List Nat) : ScopeMap :=
  mems.foldl (fun sc d => assocSet sc d ⟨gname, mems⟩) scopes

def assignAll (scopes : ScopeMap) (groups : List (String × List Nat)) : ScopeMap :=
  groups.foldl (fun sc g => assignGroup sc g.1 g.2) scopes

/-- The `while True` loop of `TypeScope.register`: stop once every group of
current exposed names is a singleton, otherwise re-scope every larger group
and go round again.  The loop has no termination bound in the source, hence
the fuel; `none` models a run that is still looping. -/
def registerLoop (labels : List (Nat × String)) (ds : List Nat) :
    Nat → ScopeMap → Option ScopeMap
  | 0, _ => none
  | fuel + 1, scopes =>
    let groups := groupByName (exposedName labels scopes) ds
    if groups.all (fun g => g.2.length == 1) then some scopes
    else
      registerLoop labels ds fuel
        (groups.foldl
          (fun sc g => if 1 < g.2.length then assignGroup sc g.1 g.2 else sc) scopes)

/-- `TypeScope.register`: clear every descendant's scope, group by the raw
labels, scope every group, then iterate. -/
def registerTS (labels : List (Nat × String)) (ds : List Nat) (fuel : Nat) :
    Option ScopeMap :=
  let groups0 := groupByName (fun d => exposedName labels [] d) ds
  registerLoop labels ds fuel (assignAll [] groups0)

/-! ## The ownership graph (`thing/node.py`, `thing/base.py`)

This universe contains ordinary node kinds only: no `CyclicalThing`,
`FocalThing` or `Tendon` kinds, so `_decouple_descendants`, the `_CYCLE_REF`
loops of `attach`/`detach`, and the cyclical part of `copy` are identities
here (they iterate over collections that are empty for these kinds).  A node
declares its `_CHILDREN` table as a list of roles — each with the accepted
kinds, its `Tendon`-ness (the `attach` type check skips `Tendon`-typed
roles), and the backing children list.  `_launched` is true when the root is
a built `World`.

Every error value carries the heap at the moment of the raise: Python
exceptions do not undo prior mutations. -/

structure Role where
  accepts : List Nat
  isTendonRole : Bool
  children : List Nat
  deriving Repr, DecidableEq

structure ANode where
  kind : Nat
  parentA : Option Nat
  roles : List Role
  isWorld : Bool
  builtA : Bool
  payload : Nat
  deriving Repr, DecidableEq

abbrev AHeap := List (Nat × ANode)

/-- A heap together with the (global) id counter; ids of live nodes are
below `next` and fresh nodes are allocated at `next`. -/
structure AState where
  heap : AHeap
  next : Nat
  deriving Repr, DecidableEq

/-- `BaseThing.path`: the chain of owners from the root down to the node.
Fuel bounds the `while` loop; `none` models a walk that dangles or never
ends. -/
def pathIds : Nat → AHeap → Nat → Option (List Nat)
  | 0, _, _ => none
  | fuel + 1, h, n =>
    match assocFind h n with
    | none => none
    | some nd =>
      match nd.parentA with
      | none => some [n]
      | some p => (pathIds fuel h p).map (· ++ [n])

def pathOf (h : AHeap) (n : Nat) : Option (List Nat) :=
  pathIds (h.length + 1) h n

/-- `BaseThing.root`: the head of the path. -/
def rootOf (h : AHeap) (n : Nat) : Option Nat :=
  (pathOf h n).bind List.head?

/-- `BaseThing._launched`: the root is a `World` that has been built. -/
def launchedOf (h : AHeap) (n : Nat) : Option Bool :=
  (rootOf h n).bind fun r => (assocFind h r).map fun rn => rn.isWorld && rn.builtA

inductive AErr where
  | stuck
  | cycleErr
  | typeErr
  | launchedErr
  deriving Repr, DecidableEq

/-- The role scan of `detach`: every role whose type accepts the item and
whose children contain it loses the item; the flag records whether any role
matched (in which case the item's parent edge is cleared). -/
def detachRoles (item ikind : Nat) (roles : List Role) : List Role × Bool :=
  (roles.map fun r =>
      if r.accepts.contains ikind && r.children.contains item then
        { r with children := r.children.erase item }
      else r,
    roles.any fun r => r.accepts.contains ikind && r.children.contains item)

/-- The per-item body of `detach` (after the `_launched` check): remove the
item from the matching role collections of `p` and clear its parent edge.
`_decouple_descendants` / `_decouple` and the `_CYCLE_REF` scan are
identities in this universe. -/
def detachOne (h : AHeap) (p item : Nat) : Except (AErr × AHeap) AHeap :=
  match assocFind h p, assocFind h item with
  | some pn, some itn =>
    let rf := detachRoles item itn.kind pn.roles
    let h1 := assocSet h p { pn with roles := rf.1 }
    if rf.2 then
      match assocFind h1 item with
      | some itn1 => .ok (assocSet h1 item { itn1 with parentA := none })
      | none => .error (.stuck, h1)
    else .ok h1
  | _, _ => .error (.stuck, h)

def detachItems (p : Nat) : AHeap → List Nat → Except (AErr × AHeap) AHeap
  | h, [] => .ok h
  | h, it :: rest =>
    match detachOne h p it with
    | .error e => .error e
    | .ok h' => detachItems p h' rest

/-- `NodeThing.detach`: raises before touching anything when the owning tree
has been finalized (`self._launched`); otherwise processes the items one at a
time.  The closing `_decouple_descendants` is an identity here. -/
def detachA (h : AHeap) (p : Nat) (items : List Nat) : Except (AErr × AHeap) AHeap :=
  match launchedOf h p with
  | none => .error (.stuck, h)
  | some true => .error (.launchedErr, h)
  | some false => detachItems p h items

/-- Insertion into the first role whose type accepts the child — the
`for name, child_dict in self._CHILDREN.items()` loop of `attach` (which,
unlike the type check, does not skip `Tendon` roles). -/
def insertFirst (roles : List Role) (ckind cid : Nat) : Option (List Role) :=
  match roles with
  | [] => none
  | r :: rest =>
    if r.accepts.contains ckind then
      some ({ r with children := r.children ++ [cid] } :: rest)
    else (insertFirst rest ckind cid).map (r :: ·)

/-- The common tail of `attach` for one child (already copied, or taken
as-is): detach it from its current parent if it has one, check its type
against the non-`Tendon` roles, then append it to the first matching role and
set its parent edge.  `globally` is `False` throughout, so the spatial
transform is skipped. -/
def attachCommon (h : AHeap) (recv child : Nat) : Except (AErr × AHeap) AHeap :=
  match assocFind h child with
  | none => .error (.stuck, h)
  | some cn =>
    let step1 : Except (AErr × AHeap) AHeap :=
      match cn.parentA with
      | some q => detachA h q [child]
      | none => .ok h
    match step1 with
    | .error e => .error e
    | .ok h1 =>
      match assocFind h1 recv with
      | none => .error (.stuck, h1)
      | some rn1 =>
        if ¬ rn1.roles.any (fun r => !r.isTendonRole && r.accepts.contains cn.kind) then
          .error (.typeErr, h1)
        else
          match insertFirst rn1.roles cn.kind child with
          | none => .error (.stuck, h1)
          | some roles' =>
            let h2 := assocSet h1 recv { rn1 with roles := roles' }
            match assocFind h2 child with
            | some cn2 => .ok (assocSet h2 child { cn2 with parentA := some recv })
            | none => .error (.stuck, h2)

/-- `attach(item, copy=False)` for one node item: the owning-edge cycle check
(`child in self.path`) fires before anything is mutated, then the common
tail runs. -/
def attachNoCopy (h : AHeap) (recv item : Nat) : Except (AErr × AHeap) AHeap :=
  match pathOf h recv with
  | none => .error (.stuck, h)
  | some path =>
    if item ∈ path then .error (.cycleErr, h)
    else attachCommon h recv item

/-- The constructor's `self.attach(*children, copy=False)` loop over the
copied children. -/
def attachKidsA : AHeap → Nat → List Nat → Except (AErr × AHeap) AHeap
  | h, _, [] => .ok h
  | h, newId, c :: rest =>
    match attachNoCopy h newId c with
    | .error e => .error e
    | .ok h' => attachKidsA h' newId rest

/-- Copy a children list with `copy`, threading the state (`copy` is the
recursive node-copy at the remaining fuel, passed as a function so that the
recursion is structural in the fuel). -/
def copyKidsA (copy : AState → Nat → Except (AErr × AState) (AState × Nat)) :
    AState → List Nat → Except (AErr × AState) (AState × List Nat)
  | st, [] => .ok (st, [])
  | st, c :: rest =>
    match copy st c with
    | .error e => .error e
    | .ok (st1, cid) =>
      match copyKidsA copy st1 rest with
      | .error e => .error e
      | .ok (st2, ids) => .ok (st2, cid :: ids)

/-- Copy, role by role, the children lists of a node being copied. -/
def copyRolesA (copy : AState → Nat → Except (AErr × AState) (AState × Nat)) :
    AState → List Role → Except (AErr × AState) (AState × List Nat)
  | st, [] => .ok (st, [])
  | st, r :: rest =>
    match copyKidsA copy st r.children with
    | .error e => .error e
    | .ok (st1, ids1) =>
      match copyRolesA copy st1 rest with
      | .error e => .error e
      | .ok (st2, ids2) => .ok (st2, ids1 ++ ids2)

/-- `NodeThing.copy` (deep, no overrides) in this universe: recursively copy
the children of every role, then build the new node — whose constructor
receives the original's blueprint attributes (its `parent` pointer included:
`'parent'` is a blueprint attribute), starts `_built` as false and with empty
role collections, and re-attaches the copied children with
`attach(copy=False)`.  There are no cyclical children, so
`_migrate_children` does nothing. -/
def copyA : Nat → AState → Nat → Except (AErr × AState) (AState × Nat)
  | 0, st, _ => .error (.stuck, st)
  | fuel + 1, st, n =>
    match assocFind st.heap n with
    | none => .error (.stuck, st)
    | some nd =>
      match copyRolesA (copyA fuel) st nd.roles with
      | .error e => .error e
      | .ok (st1, kids) =>
        let newId := st1.next
        let base : ANode :=
          { kind := nd.kind, parentA := nd.parentA,
            roles := nd.roles.map (fun r => { r with children := [] }),
            isWorld := nd.isWorld, builtA := false, payload := nd.payload }
        let st2 : AState := { heap := st1.heap ++ [(newId, base)], next := newId + 1 }
        match attachKidsA st2.heap newId kids with
        | .error e => .error (e.1, { st2 with heap := e.2 })
        | .ok h' => .ok ({ st2 with heap := h' }, newId)

/-- `NodeThing.attach` for a single item (`globally=False`): with
`copy=True` the item is deep-copied first and the cycle check is skipped;
with `copy=False` the item itself is relinked after the cycle check. -/
def attachOneA (fuel : Nat) (st : AState) (recv item : Nat) (copyFlag : Bool) :
    Except (AErr × AState) AState :=
  if copyFlag then
    match copyA fuel st item with
    | .error e => .error e
    | .ok (st1, cid) =>
      match attachCommon st1.heap recv cid with
      | .error e => .error (e.1, { st1 with heap := e.2 })
      | .ok h' => .ok { st1 with heap := h' }
  else
    match attachNoCopy st.heap recv item with
    | .error e => .error (e.1, { st with heap := e.2 })
    | .ok h' => .ok { st with heap := h' }

/-- `n` successive top-level calls of `attach(item, copy=True)`: each call is
a separate statement, so a raise in one call does not stop the next. -/
def attachRepeat (fuel : Nat) (recv item : Nat) : Nat → AState → AState
  | 0, st => st
  | k + 1, st =>
    match attachOneA fuel st recv item true with
    | .ok st' => attachRepeat fuel recv item k st'
    | .error e => attachRepeat fuel recv item k e.2

/-- Well-formedness of an `AState`: every live id — keys, parent pointers and
role members — is below the allocation counter. -/
def WFA (st : AState) : Prop :=
  ∀ p ∈ st.heap, p.1 < st.next ∧
    (∀ q, p.2.parentA = some q → q < st.next) ∧
    ∀ r ∈ p.2.roles, ∀ c ∈ r.children, c < st.next


/-- The template-tracking invariant: node `T` is bound to `tn` and every id
mentioned by `tn` (its own and its children's) lies below the allocation
counter, so that freshly allocated ids can never collide with them. -/
abbrev TInv (T : Nat) (tn : ANode) (st : AState) : Prop :=
  assocFind st.heap T = some tn ∧ T < st.next ∧
    ∀ r ∈ tn.roles, ∀ c ∈ r.children, c < st.next

/-- The state carried by a node-copy outcome. -/
def stResN : Except (AErr × AState) (AState × Nat) → AState
  | .ok p => p.1
  | .error e => e.2

/-- The state carried by a list-copy outcome. -/
def stResL : Except (AErr × AState) (AState × List Nat) → AState
  | .ok p => p.1
  | .error e => e.2

/-- The state carried by an attach outcome. -/
def stRes : Except (AErr × AState) AState → AState
  | .ok s => s
  | .error e => e.2

/-- The heap carried by a heap-level outcome. -/
def hRes : Except (AErr × AHeap) AHeap → AHeap
  | .ok h => h
  | .error e => e.2

/-! ## The cross-reference migration protocol (`thing/cyclical.py`)

This universe holds bodies and cameras.  A `Camera` is a `CyclicalThing`
with `_PARENT_REFERENCE = 'target'` and `_OTHER_REFERENCES = {'target': …}`:
it is a proper child of one body (the `cameras` role) and points, through its
`target` attribute, at another body, which keeps the camera in its
`_CYCLE_REF` backing list (`targeting`).  The concrete `Camera` / `Body`
modules of the package are not under `src/mujoco_blueprints`; their
`target` property setter and `Body.__init__` are taken from the sister
implementation `src/blueprints/camera.py` / `src/blueprints/body.py` in this
repository, which the abstract classes under
`src/mujoco_blueprints/thing/` are written against.

Key source facts driving the embedding: `'parent'` is a blueprint attribute
(`types.py`), so a copy's parent pointer initially aims at the *original*
parent until the new parent's constructor relinks it; a camera's `target` is
*not* a blueprint attribute, so camera copies start with no target and are
rewired solely through `_migrate`; `attach` writes `child._parent` directly,
bypassing `CyclicalThing.__setattr__`.

`diags` counts emitted diagnostics; no statement in these code paths prints
or records anything, so no function below increments it. -/

structure CamB where
  parentC : Option Nat
  target : Option Nat
  migrated : Bool
  migParent : Option Nat
  migTarget : Option Nat
  copyId : Option Nat
  ignore : Bool
  deriving Repr, DecidableEq

structure BodyB where
  parentB : Option Nat
  subs : List Nat
  cams : List Nat
  targeting : List Nat
  deriving Repr, DecidableEq

structure BState where
  bodiesB : List (Nat × BodyB)
  camsB : List (Nat × CamB)
  nextB : Nat
  copyRoot : Option Nat
  diags : Nat
  deriving Repr, DecidableEq

/-- An argument to `detach`: a body or a camera. -/
inductive BItem where
  | body : Nat → BItem
  | cam : Nat → BItem
  deriving Repr, DecidableEq

inductive BErr where
  | stuckB
  | valueErr
  | alreadyMigrated
  deriving Repr, DecidableEq

abbrev BRes (α : Type) := Except (BErr × BState) α

def getBody (st : BState) (b : Nat) : Option BodyB := assocFind st.bodiesB b

def getCam (st : BState) (c : Nat) : Option CamB := assocFind st.camsB c

def setBody (st : BState) (b : Nat) (nd : BodyB) : BState :=
  { st with bodiesB := assocSet st.bodiesB b nd }

def setCam (st : BState) (c : Nat) (cm : CamB) : BState :=
  { st with camsB := assocSet st.camsB c cm }

/-- `BaseThing.root` along body parent edges. -/
def rootB : Nat → BState → Nat → Option Nat
  | 0, _, _ => none
  | fuel + 1, st, b =>
    match getBody st b with
    | none => none
    | some nd =>
      match nd.parentB with
      | none => some b
      | some p => rootB fuel st p

/-- `BaseThing.path` along body parent edges (used by the cycle check of
`attach`). -/
def pathB : Nat → BState → Nat → Option (List Nat)
  | 0, _, _ => none
  | fuel + 1, st, b =>
    match getBody st b with
    | none => none
    | some nd =>
      match nd.parentB with
      | none => some [b]
      | some p => (pathB fuel st p).map (· ++ [b])

/-- `CyclicalThing._disjunct`: true when either side is `None` or the roots
are distinct objects. -/
def disjunctB (fuel : Nat) (st : BState) (a b : Option Nat) : Option Bool :=
  match a, b with
  | none, _ => some true
  | _, none => some true
  | some x, some y => do
    let rx ← rootB fuel st x
    let ry ← rootB fuel st y
    some (decide (rx ≠ ry))

/-- Concatenate the subtree-camera lists of a list of sub-bodies (`sub` is
the recursive subtree walk at the remaining fuel, passed as a function so
that the recursion is structural in the fuel). -/
def subtreeCamsList (sub : BState → Nat → Option (List Nat)) (st : BState) :
    List Nat → Option (List Nat)
  | [] => some []
  | s :: rest => do
    let cs ← sub st s
    let csr ← subtreeCamsList sub st rest
    some (cs ++ csr)

/-- The `descendants['cameras']` list of a body: its own camera children
first, then those of each sub-body's subtree in order (duplicate-free by
construction in the states considered). -/
def subtreeCams : Nat → BState → Nat → Option (List Nat)
  | 0, _, _ => none
  | fuel + 1, st, b =>
    match getBody st b with
    | none => none
    | some nd => (subtreeCamsList (subtreeCams fuel) st nd.subs).map (nd.cams ++ ·)

/-- `_MIGRATION_DONE`: `'parent'` and every `_OTHER_REFERENCES` key
(`'target'`) are in `_MIGRATIONS`. -/
def migrationDone (cm : CamB) : Bool :=
  cm.migParent.isSome && cm.migTarget.isSome

/-- `_finalize_migration`: unset the copy's `_IGNORE_CHECKS`, then drop the
transient bookkeeping. -/
def finalizeMigration (st : BState) (c : Nat) : BRes BState :=
  match getCam st c with
  | none => .error (.stuckB, st)
  | some cm =>
    match cm.copyId with
    | none => .error (.stuckB, st)
    | some cp =>
      match getCam st cp with
      | none => .error (.stuckB, st)
      | some cpm =>
        let st1 := setCam st cp { cpm with ignore := false }
        match getCam st1 c with
        | none => .error (.stuckB, st1)
        | some cm1 =>
          .ok (setCam st1 c
            { cm1 with copyId := none, migrated := false,
                       migParent := none, migTarget := none })

mutual

/-- The `Camera.target` property setter (`camera.py`): requires a parent
unless checks are suspended, refuses the camera's own parent, detaches the
camera from its previous target's back-reference list, registers it with the
new target, and stores the pointer. -/
def targetFset : Nat → BState → Nat → Option Nat → BRes BState
  | 0, st, _, _ => .error (.stuckB, st)
  | fuel + 1, st, c, tgt =>
    match getCam st c with
    | none => .error (.stuckB, st)
    | some cm =>
      if cm.parentC = none ∧ cm.ignore = false then .error (.valueErr, st)
      else if cm.parentC ≠ none ∧ cm.parentC = tgt then .error (.valueErr, st)
      else
        let step1 : BRes BState :=
          match cm.target with
          | some oldT => detachB fuel st oldT [.cam c]
          | none => .ok st
        match step1 with
        | .error e => .error e
        | .ok st1 =>
          let step2 : BRes BState :=
            match tgt with
            | some t =>
              match getBody st1 t with
              | none => .error (.stuckB, st1)
              | some tn => .ok (setBody st1 t { tn with targeting := tn.targeting ++ [c] })
            | none => .ok st1
          match step2 with
          | .error e => .error e
          | .ok st2 =>
            match getCam st2 c with
            | none => .error (.stuckB, st2)
            | some cm2 => .ok (setCam st2 c { cm2 with target := tgt })
termination_by structural fuel _ _ _ => fuel

/-- `CyclicalThing.__setattr__` for the `'target'` attribute: the setter runs
when checks are suspended, when the reference shares the camera's root, or
when it is `None`; otherwise a `ValueError` is raised. -/
def camSetattrTarget : Nat → BState → Nat → Option Nat → BRes BState
  | 0, st, _, _ => .error (.stuckB, st)
  | fuel + 1, st, c, ref =>
    match getCam st c with
    | none => .error (.stuckB, st)
    | some cm =>
      if cm.ignore then targetFset fuel st c ref
      else
        match ref with
        | none => targetFset fuel st c none
        | some r =>
          match disjunctB fuel st cm.parentC (some r) with
          | none => .error (.stuckB, st)
          | some d =>
            if d then .error (.valueErr, st)
            else targetFset fuel st c (some r)
termination_by structural fuel _ _ _ => fuel

/-- `CyclicalThing._decouple`: a target that no longer shares the camera's
root is detached and the reference is cleared through `__setattr__`. -/
def decoupleCam : Nat → BState → Nat → BRes BState
  | 0, st, _ => .error (.stuckB, st)
  | fuel + 1, st, c =>
    match getCam st c with
    | none => .error (.stuckB, st)
    | some cm =>
      match cm.target with
      | none => .ok st
      | some t =>
        match disjunctB fuel st cm.parentC (some t) with
        | none => .error (.stuckB, st)
        | some d =>
          if d then
            match detachB fuel st t [.cam c] with
            | .error e => .error e
            | .ok st1 => camSetattrTarget fuel st1 c none
          else .ok st
termination_by structural fuel _ _ => fuel

/-- `NodeThing._decouple_descendants` on a body: `_decouple` every camera in
the subtree. -/
def decoupleDescB : Nat → BState → Nat → BRes BState
  | 0, st, _ => .error (.stuckB, st)
  | fuel + 1, st, b =>
    match subtreeCams (fuel + 1) st b with
    | none => .error (.stuckB, st)
    | some cs => decoupleList fuel st cs
termination_by structural fuel _ _ => fuel

def decoupleList : Nat → BState → List Nat → BRes BState
  | 0, st, _ => .error (.stuckB, st)
  | _ + 1, st, [] => .ok st
  | fuel + 1, st, c :: rest =>
    match decoupleCam fuel st c with
    | .error e => .error e
    | .ok st1 => decoupleList fuel st1 rest
termination_by structural fuel _ _ => fuel

/-- `NodeThing.detach` on a body `p` (this universe has no `World` kind, so
the `self._launched` guard is always `False` and never raises): each item is
removed from the matching role collection (clearing its parent edge and
decoupling), then from the `_CYCLE_REF` back-reference list (clearing the
`'target'` pointer through `__setattr__`); finally the remaining subtree is
decoupled. -/
def detachB : Nat → BState → Nat → List BItem → BRes BState
  | 0, st, _, _ => .error (.stuckB, st)
  | fuel + 1, st, p, items =>
    match detachBItems fuel st p items with
    | .error e => .error e
    | .ok st1 => decoupleDescB fuel st1 p
termination_by structural fuel _ _ _ => fuel

def detachBItems : Nat → BState → Nat → List BItem → BRes BState
  | 0, st, _, _ => .error (.stuckB, st)
  | _ + 1, st, _, [] => .ok st
  | fuel + 1, st, p, item :: rest =>
    match detachBItem fuel st p item with
    | .error e => .error e
    | .ok st1 => detachBItems fuel st1 p rest
termination_by structural fuel _ _ _ => fuel

def detachBItem : Nat → BState → Nat → BItem → BRes BState
  | 0, st, _, _ => .error (.stuckB, st)
  | fuel + 1, st, p, .body b =>
    -- a body only matches the `bodies` role; bodies are `NodeThing`s but not
    -- `CyclicalThing`s, and no `_CYCLE_REF` entry takes bodies
    (match getBody st p with
     | none => .error (.stuckB, st)
     | some pn =>
       if b ∈ pn.subs then
         let st1 := setBody st p { pn with subs := pn.subs.erase b }
         match getBody st1 b with
         | none => .error (.stuckB, st1)
         | some bn =>
           let st2 := setBody st1 b { bn with parentB := none }
           decoupleDescB fuel st2 b
       else .ok st)
  | fuel + 1, st, p, .cam c =>
    -- a camera matches the `cameras` role; cameras are `CyclicalThing`s but
    -- not `NodeThing`s; the `_CYCLE_REF` scan then looks at `targeting`
    (match getBody st p with
     | none => .error (.stuckB, st)
     | some pn =>
       let step1 : BRes BState :=
         if c ∈ pn.cams then
           let st1 := setBody st p { pn with cams := pn.cams.erase c }
           match getCam st1 c with
           | none => .error (.stuckB, st1)
           | some cm =>
             let st2 := setCam st1 c { cm with parentC := none }
             decoupleCam fuel st2 c
         else .ok st
       match step1 with
       | .error e => .error e
       | .ok st1 =>
         match getBody st1 p with
         | none => .error (.stuckB, st1)
         | some pn1 =>
           if c ∈ pn1.targeting then
             let st2 := setBody st1 p { pn1 with targeting := pn1.targeting.erase c }
             camSetattrTarget fuel st2 c none
           else .ok st1)
termination_by structural fuel _ _ _ => fuel

end

/-- `attach(camera_copy, copy=False)` on a body: a camera is not a
`NodeThing`, so the ancestor cycle check is skipped; the camera is detached
from its current parent (the *original* body, where the copy is in no
collection, so only the closing decouple pass runs), passes the type check
(`cameras` accepts it), is appended to the `cameras` role and given its
parent edge (a direct `_parent` write). -/
def attachCamNoCopy (fuel : Nat) (st : BState) (recv cp : Nat) : BRes BState :=
  match getCam st cp with
  | none => .error (.stuckB, st)
  | some cm =>
    let step1 : BRes BState :=
      match cm.parentC with
      | some q => detachB fuel st q [.cam cp]
      | none => .ok st
    match step1 with
    | .error e => .error e
    | .ok st1 =>
      match getBody st1 recv with
      | none => .error (.stuckB, st1)
      | some rb =>
        let st2 := setBody st1 recv { rb with cams := rb.cams ++ [cp] }
        match getCam st2 cp with
        | none => .error (.stuckB, st2)
        | some cm2 => .ok (setCam st2 cp { cm2 with parentC := some recv })

/-- `attach(body_copy, copy=False)` on a body: the ancestor cycle check runs
(bodies are `NodeThing`s), the copied child is detached from its current
parent (the *original* parent, a no-op removal plus the closing decouple
pass), passes the type check, and is appended to the `bodies` role — the
first role accepting bodies — with its parent edge set. -/
def attachBodyNoCopy (fuel : Nat) (st : BState) (recv kid : Nat) : BRes BState :=
  match pathB fuel st recv with
  | none => .error (.stuckB, st)
  | some path =>
    if kid ∈ path then .error (.valueErr, st)
    else
      match getBody st kid with
      | none => .error (.stuckB, st)
      | some kn =>
        let step1 : BRes BState :=
          match kn.parentB with
          | some q => detachB fuel st q [.body kid]
          | none => .ok st
        match step1 with
        | .error e => .error e
        | .ok st1 =>
          match getBody st1 recv with
          | none => .error (.stuckB, st1)
          | some rb =>
            let st2 := setBody st1 recv { rb with subs := rb.subs ++ [kid] }
            match getBody st2 kid with
            | none => .error (.stuckB, st2)
            | some kn2 => .ok (setBody st2 kid { kn2 with parentB := some recv })

/-- `CyclicalThing._start_migration('parent', ref)`: create the one copy of
the camera (`BaseThing.copy` — the blueprint attributes carry the parent
pointer, `target` is not among them, the migration bookkeeping starts
fresh), suspend its checks, mark the original as migrating, attach the copy
to the new proper parent, replay the saved reference migrations onto the
copy, record one migration, and lift the check suspension.  The replay loop
`for attr, ref in self._MIGRATIONS.items():` shadows the method's
`attr`/`ref` parameters, so the post-loop `self._MIGRATIONS[attr] = ref`
records `'parent'` only when no migration was saved (the loop body never
ran); when a `'target'` migration was saved, the post-loop line re-records
that last replayed entry under its own value and the `'parent'` key is
never added — `_MIGRATION_DONE` then stays false and the migration is
never finalized. -/
def startMigration (fuel : Nat) (st : BState) (c ref : Nat) : BRes BState :=
  match getCam st c with
  | none => .error (.stuckB, st)
  | some cm =>
    let cpId := st.nextB
    let st1 : BState :=
      { st with
        camsB := st.camsB ++
          [(cpId, { parentC := cm.parentC, target := none, migrated := false,
                    migParent := none, migTarget := none, copyId := none,
                    ignore := false })],
        nextB := cpId + 1 }
    let st2 := setCam st1 c { cm with copyId := some cpId }
    match getCam st2 cpId with
    | none => .error (.stuckB, st2)
    | some cpm =>
      let st3 := setCam st2 cpId { cpm with ignore := true }
      match getCam st3 c with
      | none => .error (.stuckB, st3)
      | some cm3 =>
        let st4 := setCam st3 c { cm3 with migrated := true }
        match attachCamNoCopy fuel st4 ref cpId with
        | .error e => .error e
        | .ok st5 =>
          match getCam st5 c with
          | none => .error (.stuckB, st5)
          | some cm5 =>
            match cm5.migTarget with
            | some tr =>
              -- the loop ran: `attr`/`ref` now hold the last saved entry
              match camSetattrTarget fuel st5 cpId (some tr) with
              | .error e => .error e
              | .ok st6 =>
                match getCam st6 c with
                | none => .error (.stuckB, st6)
                | some cm6 =>
                  let st7 := setCam st6 c { cm6 with migTarget := some tr }
                  match getCam st7 cpId with
                  | none => .error (.stuckB, st7)
                  | some cpm7 => .ok (setCam st7 cpId { cpm7 with ignore := false })
            | none =>
              -- no saved migration: the parameters survive and `'parent'`
              -- is recorded
              let st7 := setCam st5 c { cm5 with migParent := some ref }
              match getCam st7 cpId with
              | none => .error (.stuckB, st7)
              | some cpm7 => .ok (setCam st7 cpId { cpm7 with ignore := false })

/-- The migrated reference attributes of a camera:
`'parent'` or `'target'`. -/
inductive MAttr where
  | parentRef
  | targetRef
  deriving Repr, DecidableEq

/-- `CyclicalThing._migrate(attr, ref, ignore_checks)`.  A `'parent'` request
finalizes any migration still pending and starts the new one.  A `'target'`
request during an active migration fails when that reference was already
migrated, and otherwise rewires the already-created copy; before the copy
exists the request is saved for the replay.  Whenever every reference has
been migrated the bookkeeping is discarded. -/
def migrateCam (fuel : Nat) (st : BState) (c : Nat) (attr : MAttr) (ref : Nat)
    (ignoreFlag : Bool) : BRes BState :=
  match getCam st c with
  | none => .error (.stuckB, st)
  | some cm =>
    match attr with
    | .parentRef =>
      let step0 : BRes BState :=
        if cm.migrated then finalizeMigration st c else .ok st
      match step0 with
      | .error e => .error e
      | .ok st1 =>
        match startMigration fuel st1 c ref with
        | .error e => .error e
        | .ok st2 =>
          match getCam st2 c with
          | none => .error (.stuckB, st2)
          | some cm2 =>
            if migrationDone cm2 then finalizeMigration st2 c else .ok st2
    | .targetRef =>
      if cm.migrated then
        if cm.migTarget.isSome then .error (.alreadyMigrated, st)
        else
          let st1 := setCam st c { cm with migTarget := some ref }
          match cm.copyId with
          | none => .error (.stuckB, st1)
          | some cp =>
            match getCam st1 cp with
            | none => .error (.stuckB, st1)
            | some cpm =>
              let temp := cpm.ignore
              let st2 := setCam st1 cp { cpm with ignore := ignoreFlag }
              match camSetattrTarget fuel st2 cp (some ref) with
              | .error e => .error e
              | .ok st3 =>
                match getCam st3 cp with
                | none => .error (.stuckB, st3)
                | some cpm3 =>
                  let st4 := setCam st3 cp { cpm3 with ignore := temp }
                  match getCam st4 c with
                  | none => .error (.stuckB, st4)
                  | some cm4 =>
                    if migrationDone cm4 then finalizeMigration st4 c else .ok st4
      else
        let st1 := setCam st c { cm with migTarget := some ref }
        match getCam st1 c with
        | none => .error (.stuckB, st1)
        | some cm1 =>
          if migrationDone cm1 then finalizeMigration st1 c else .ok st1

def migrateParentList (fuel : Nat) (newId : Nat) : BState → List Nat → BRes BState
  | st, [] => .ok st
  | st, c :: rest =>
    match migrateCam fuel st c .parentRef newId false with
    | .error e => .error e
    | .ok st1 => migrateParentList fuel newId st1 rest

def migrateTargetList (fuel : Nat) (newId : Nat) : BState → List Nat → BRes BState
  | st, [] => .ok st
  | st, c :: rest =>
    match migrateCam fuel st c .targetRef newId false with
    | .error e => .error e
    | .ok st1 => migrateTargetList fuel newId st1 rest

def attachBodyKids (fuel : Nat) (newId : Nat) : BState → List Nat → BRes BState
  | st, [] => .ok st
  | st, k :: rest =>
    match attachBodyNoCopy fuel st newId k with
    | .error e => .error e
    | .ok st1 => attachBodyKids fuel newId st1 rest

/-- Copy a list of sub-bodies with `copy`, threading the state (`copy` is
the recursive body-copy at the remaining fuel, passed as a function so that
the recursion is structural in the fuel). -/
def copyKidsB (copy : BState → Nat → BRes (BState × Nat)) :
    BState → List Nat → BRes (BState × List Nat)
  | st, [] => .ok (st, [])
  | st, k :: rest =>
    match copy st k with
    | .error e => .error e
    | .ok (st1, kid) =>
      match copyKidsB copy st1 rest with
      | .error e => .error e
      | .ok (st2, ids) => .ok (st2, kid :: ids)

/-- `NodeThing.copy` on a body: note the copy root in the global register,
recursively copy the acyclic `bodies` children, collect the cyclical
`cameras` children *uncopied*, build the new body — whose constructor
receives the original's parent pointer, starts with empty collections (the
cyclical role is excluded from the constructor arguments, and `_CYCLE_REF`
backing lists always start empty), and re-attaches the copied children with
`attach(copy=False)` — then run `_migrate_children`: a `'parent'` migration
for every cyclical child, a `'target'` migration for every camera in the
`_CYCLE_REF` list (read at loop time), and nothing for the absent focal
kinds; finally clear the copy root when it was this call's. -/
def copyBodyB : Nat → BState → Nat → BRes (BState × Nat)
  | 0, st, _ => .error (.stuckB, st)
  | fuel + 1, st, b =>
    match getBody st b with
    | none => .error (.stuckB, st)
    | some nd =>
      let isTop := st.copyRoot.isNone
      let st0 := if isTop then { st with copyRoot := some b } else st
      match copyKidsB (copyBodyB fuel) st0 nd.subs with
      | .error e => .error e
      | .ok (st1, kidIds) =>
        let newId := st1.nextB
        let st2 : BState :=
          { st1 with
            bodiesB := st1.bodiesB ++
              [(newId, { parentB := nd.parentB, subs := [], cams := [],
                         targeting := [] })],
            nextB := newId + 1 }
        match attachBodyKids fuel newId st2 kidIds with
        | .error e => .error e
        | .ok st3 =>
          match migrateParentList fuel newId st3 nd.cams with
          | .error e => .error e
          | .ok st4 =>
            match getBody st4 b with
            | none => .error (.stuckB, st4)
            | some nd4 =>
              match migrateTargetList fuel newId st4 nd4.targeting with
              | .error e => .error e
              | .ok st5 =>
                let st6 := if isTop then { st5 with copyRoot := none } else st5
                .ok (st6, newId)

/-- `nextB` and camera-count preservation between two states: the cluster of
reference-maintenance operations allocates nothing. -/
abbrev BShape (st st' : BState) : Prop :=
  st'.nextB = st.nextB ∧ st'.camsB.length = st.camsB.length

/-- A camera mid-migration: body `2` already holds the copy (camera `4`),
the original (camera `3`) records the pending copy and the migrated
`'parent'` reference, and no `'target'` migration has been requested yet. -/
def c8St : BState :=
  { bodiesB := [(0, ⟨none, [1, 2], [], []⟩), (1, ⟨some 0, [], [3], []⟩),
                (2, ⟨some 0, [], [4], []⟩)],
    camsB := [(3, ⟨some 1, none, true, some 2, none, some 4, false⟩),
              (4, ⟨some 2, none, false, none, none, none, false⟩)],
    nextB := 5, copyRoot := none, diags := 0 }

/-- The same mid-migration state after a first `'target'` request has been
recorded (`_MIGRATIONS` already contains `'target'`). -/
def c8Dup : BState :=
  { c8St with camsB := [(3, ⟨some 1, none, true, some 2, some 1, some 4, false⟩),
                        (4, ⟨some 2, none, false, none, none, none, false⟩)] }

/-- The outcome of the first `'target'` request on `c8St`: the existing copy
(camera `4`) is rewired to body `1`, no new camera exists, and the completed
migration's bookkeeping has been discarded. -/
def c8Final : BState :=
  { bodiesB := [(0, ⟨none, [1, 2], [], []⟩), (1, ⟨some 0, [], [3], [4]⟩),
                (2, ⟨some 0, [], [4], []⟩)],
    camsB := [(3, ⟨some 1, none, false, none, none, none, false⟩),
              (4, ⟨some 2, some 1, false, none, none, none, false⟩)],
    nextB := 5, copyRoot := none, diags := 0 }


/-- A tree with a camera whose target lies outside the subtree about to be
copied: body `1` (child of root `0`) holds camera `3`, which targets the
sibling body `2`.  The diagnostics counter starts at an arbitrary `d`. -/
def c7St (d : Nat) : BState :=
  { bodiesB := [(0, ⟨none, [1, 2], [], []⟩), (1, ⟨some 0, [], [3], []⟩),
                (2, ⟨some 0, [], [], [3]⟩)],
    camsB := [(3, ⟨some 1, some 2, false, none, none, none, false⟩)],
    nextB := 4, copyRoot := none, diags := d }

/-- The outcome of copying body `1` out of `c7St d`: the copied body `4`
holds the camera copy `5`, whose `target` is absent; the original camera is
left mid-migration (its `'target'` reference never arrived), and the
diagnostics counter is untouched. -/
def c7Res (d : Nat) : BState :=
  { bodiesB := [(0, ⟨none, [1, 2], [], []⟩), (1, ⟨some 0, [], [3], []⟩),
                (2, ⟨some 0, [], [], [3]⟩), (4, ⟨some 0, [], [5], []⟩)],
    camsB := [(3, ⟨some 1, some 2, true, some 4, none, some 5, false⟩),
              (5, ⟨some 4, none, false, none, none, none, false⟩)],
    nextB := 6, copyRoot := none, diags := d }


/-! ### States for the migration-deduplication scenarios

`c3Diamond` is the diamond: camera `3`, child of body `1`, targets the
sibling body `2`; both holders lie inside the copied region (the subtree of
root `0`).  `c3Cycle` closes a true reference cycle: camera `3` (in body
`1`) targets body `2` while camera `4` (in body `2`) targets body `1`.  The
`c3D*` / `c3C*` states are the intermediate stages of copying root `0`
(each sub-body copy, the fresh root, and each re-attachment); from `c3C2`
onwards camera `4` remains mid-migration, because its `'parent'` request
arrived while a `'target'` migration was already saved and
`_start_migration`'s shadowed post-loop recording then never adds the
`'parent'` key.  `c3W` is
a camera about to receive its first `'parent'` migration. -/

def c3Diamond : BState :=
  { bodiesB := [(0, ⟨none, [1, 2], [], []⟩), (1, ⟨some 0, [], [3], []⟩),
                (2, ⟨some 0, [], [], [3]⟩)],
    camsB := [(3, ⟨some 1, some 2, false, none, none, none, false⟩)],
    nextB := 4, copyRoot := none, diags := 0 }

def c3D1 : BState :=
  { bodiesB := [(0, ⟨none, [1, 2], [], []⟩), (1, ⟨some 0, [], [3], []⟩),
                (2, ⟨some 0, [], [], [3]⟩), (4, ⟨some 0, [], [5], []⟩)],
    camsB := [(3, ⟨some 1, some 2, true, some 4, none, some 5, false⟩),
              (5, ⟨some 4, none, false, none, none, none, false⟩)],
    nextB := 6, copyRoot := some 0, diags := 0 }

def c3D2 : BState :=
  { bodiesB := [(0, ⟨none, [1, 2], [], []⟩), (1, ⟨some 0, [], [3], []⟩),
                (2, ⟨some 0, [], [], [3]⟩), (4, ⟨some 0, [], [5], []⟩),
                (6, ⟨some 0, [], [], [5]⟩)],
    camsB := [(3, ⟨some 1, some 2, false, none, none, none, false⟩),
              (5, ⟨some 4, some 6, false, none, none, none, false⟩)],
    nextB := 7, copyRoot := some 0, diags := 0 }

def c3D3 : BState :=
  { bodiesB := [(0, ⟨none, [1, 2], [], []⟩), (1, ⟨some 0, [], [3], []⟩),
                (2, ⟨some 0, [], [], [3]⟩), (4, ⟨some 0, [], [5], []⟩),
                (6, ⟨some 0, [], [], [5]⟩), (7, ⟨none, [], [], []⟩)],
    camsB := [(3, ⟨some 1, some 2, false, none, none, none, false⟩),
              (5, ⟨some 4, some 6, false, none, none, none, false⟩)],
    nextB := 8, copyRoot := some 0, diags := 0 }

def c3D4 : BState :=
  { bodiesB := [(0, ⟨none, [1, 2], [], []⟩), (1, ⟨some 0, [], [3], []⟩),
                (2, ⟨some 0, [], [], [3]⟩), (4, ⟨some 7, [], [5], []⟩),
                (6, ⟨some 0, [], [], [5]⟩), (7, ⟨none, [4], [], []⟩)],
    camsB := [(3, ⟨some 1, some 2, false, none, none, none, false⟩),
              (5, ⟨some 4, some 6, false, none, none, none, false⟩)],
    nextB := 8, copyRoot := some 0, diags := 0 }

def c3D5 : BState :=
  { bodiesB := [(0, ⟨none, [1, 2], [], []⟩), (1, ⟨some 0, [], [3], []⟩),
                (2, ⟨some 0, [], [], [3]⟩), (4, ⟨some 7, [], [5], []⟩),
                (6, ⟨some 7, [], [], [5]⟩), (7, ⟨none, [4, 6], [], []⟩)],
    camsB := [(3, ⟨some 1, some 2, false, none, none, none, false⟩),
              (5, ⟨some 4, some 6, false, none, none, none, false⟩)],
    nextB := 8, copyRoot := some 0, diags := 0 }

def c3DiamondRes : BState :=
  { bodiesB := [(0, ⟨none, [1, 2], [], []⟩), (1, ⟨some 0, [], [3], []⟩),
                (2, ⟨some 0, [], [], [3]⟩), (4, ⟨some 7, [], [5], []⟩),
                (6, ⟨some 7, [], [], [5]⟩), (7, ⟨none, [4, 6], [], []⟩)],
    camsB := [(3, ⟨some 1, some 2, false, none, none, none, false⟩),
              (5, ⟨some 4, some 6, false, none, none, none, false⟩)],
    nextB := 8, copyRoot := none, diags := 0 }

def c3Cycle : BState :=
  { bodiesB := [(0, ⟨none, [1, 2], [], []⟩), (1, ⟨some 0, [], [3], [4]⟩),
                (2, ⟨some 0, [], [4], [3]⟩)],
    camsB := [(3, ⟨some 1, some 2, false, none, none, none, false⟩),
              (4, ⟨some 2, some 1, false, none, none, none, false⟩)],
    nextB := 5, copyRoot := none, diags := 0 }

def c3C1 : BState :=
  { bodiesB := [(0, ⟨none, [1, 2], [], []⟩), (1, ⟨some 0, [], [3], [4]⟩),
                (2, ⟨some 0, [], [4], [3]⟩), (5, ⟨some 0, [], [6], []⟩)],
    camsB := [(3, ⟨some 1, some 2, true, some 5, none, some 6, false⟩),
              (4, ⟨some 2, some 1, false, none, some 5, none, false⟩),
              (6, ⟨some 5, none, false, none, none, none, false⟩)],
    nextB := 7, copyRoot := some 0, diags := 0 }

def c3C2 : BState :=
  { bodiesB := [(0, ⟨none, [1, 2], [], []⟩), (1, ⟨some 0, [], [3], [4]⟩),
                (2, ⟨some 0, [], [4], [3]⟩), (5, ⟨some 0, [], [6], [8]⟩),
                (7, ⟨some 0, [], [8], [6]⟩)],
    camsB := [(3, ⟨some 1, some 2, false, none, none, none, false⟩),
              (4, ⟨some 2, some 1, true, none, some 5, some 8, false⟩),
              (6, ⟨some 5, some 7, false, none, none, none, false⟩),
              (8, ⟨some 7, some 5, false, none, none, none, false⟩)],
    nextB := 9, copyRoot := some 0, diags := 0 }

def c3C3 : BState :=
  { bodiesB := [(0, ⟨none, [1, 2], [], []⟩), (1, ⟨some 0, [], [3], [4]⟩),
                (2, ⟨some 0, [], [4], [3]⟩), (5, ⟨some 0, [], [6], [8]⟩),
                (7, ⟨some 0, [], [8], [6]⟩), (9, ⟨none, [], [], []⟩)],
    camsB := [(3, ⟨some 1, some 2, false, none, none, none, false⟩),
              (4, ⟨some 2, some 1, true, none, some 5, some 8, false⟩),
              (6, ⟨some 5, some 7, false, none, none, none, false⟩),
              (8, ⟨some 7, some 5, false, none, none, none, false⟩)],
    nextB := 10, copyRoot := some 0, diags := 0 }

def c3C4 : BState :=
  { bodiesB := [(0, ⟨none, [1, 2], [], []⟩), (1, ⟨some 0, [], [3], [4]⟩),
                (2, ⟨some 0, [], [4], [3]⟩), (5, ⟨some 9, [], [6], [8]⟩),
                (7, ⟨some 0, [], [8], [6]⟩), (9, ⟨none, [5], [], []⟩)],
    camsB := [(3, ⟨some 1, some 2, false, none, none, none, false⟩),
              (4, ⟨some 2, some 1, true, none, some 5, some 8, false⟩),
              (6, ⟨some 5, some 7, false, none, none, none, false⟩),
              (8, ⟨some 7, some 5, false, none, none, none, false⟩)],
    nextB := 10, copyRoot := some 0, diags := 0 }

def c3C5 : BState :=
  { bodiesB := [(0, ⟨none, [1, 2], [], []⟩), (1, ⟨some 0, [], [3], [4]⟩),
                (2, ⟨some 0, [], [4], [3]⟩), (5, ⟨some 9, [], [6], [8]⟩),
                (7, ⟨some 9, [], [8], [6]⟩), (9, ⟨none, [5, 7], [], []⟩)],
    camsB := [(3, ⟨some 1, some 2, false, none, none, none, false⟩),
              (4, ⟨some 2, some 1, true, none, some 5, some 8, false⟩),
              (6, ⟨some 5, some 7, false, none, none, none, false⟩),
              (8, ⟨some 7, some 5, false, none, none, none, false⟩)],
    nextB := 10, copyRoot := some 0, diags := 0 }

def c3CycleRes : BState :=
  { bodiesB := [(0, ⟨none, [1, 2], [], []⟩), (1, ⟨some 0, [], [3], [4]⟩),
                (2, ⟨some 0, [], [4], [3]⟩), (5, ⟨some 9, [], [6], [8]⟩),
                (7, ⟨some 9, [], [8], [6]⟩), (9, ⟨none, [5, 7], [], []⟩)],
    camsB := [(3, ⟨some 1, some 2, false, none, none, none, false⟩),
              (4, ⟨some 2, some 1, true, none, some 5, some 8, false⟩),
              (6, ⟨some 5, some 7, false, none, none, none, false⟩),
              (8, ⟨some 7, some 5, false, none, none, none, false⟩)],
    nextB := 10, copyRoot := none, diags := 0 }

def c3W : BState :=
  { bodiesB := [(0, ⟨none, [1, 2], [], []⟩), (1, ⟨some 0, [], [3], []⟩),
                (2, ⟨some 0, [], [], [3]⟩), (4, ⟨some 0, [], [], []⟩)],
    camsB := [(3, ⟨some 1, some 2, false, none, none, none, false⟩)],
    nextB := 5, copyRoot := none, diags := 0 }

def c3WRes : BState :=
  { bodiesB := [(0, ⟨none, [1, 2], [], []⟩), (1, ⟨some 0, [], [3], []⟩),
                (2, ⟨some 0, [], [], [3]⟩), (4, ⟨some 0, [], [5], []⟩)],
    camsB := [(3, ⟨some 1, some 2, true, some 4, none, some 5, false⟩),
              (5, ⟨some 4, none, false, none, none, none, false⟩)],
    nextB := 6, copyRoot := none, diags := 0 }

/-! # Theorems -/

/-! ## General lemmas -/

theorem assocFind_append {α : Type} (m₁ m₂ : List (Nat × α)) (k : Nat) :
    assocFind (m₁ ++ m₂) k =
      match assocFind m₁ k with
      | some v => some v
      | none => assocFind m₂ k := by
  induction m₁ with
  | nil => simp [assocFind]
  | cons p rest ih =>
    by_cases h : p.1 = k <;> simp [assocFind, h, ih]

theorem assocFind_append_left {α : Type} {m₁ : List (Nat × α)} {k : Nat} {v : α}
    (m₂ : List (Nat × α)) (h : assocFind m₁ k = some v) :
    assocFind (m₁ ++ m₂) k = some v := by
  rw [assocFind_append, h]

theorem assocFind_set_ne {α : Type} (m : List (Nat × α)) (k : Nat) (v : α) (r : Nat)
    (h : k ≠ r) : assocFind (assocSet m k v) r = assocFind m r := by
  induction m with
  | nil => simp [assocSet, assocFind, h]
  | cons p rest ih =>
    by_cases hk : p.1 = k
    · simp [assocSet, hk, assocFind, h]
    · by_cases hr : p.1 = r <;> simp [assocSet, hk, assocFind, hr, ih, Ne.symm h]

theorem assocFind_set_self {α : Type} (m : List (Nat × α)) (k : Nat) (v : α) :
    assocFind (assocSet m k v) k = some v := by
  induction m with
  | nil => simp [assocSet, assocFind]
  | cons p rest ih =>
    by_cases hk : p.1 = k <;> simp [assocSet, hk, assocFind, ih]

/-! ## C1 : copy-on-write `prepare_for_mutation` -/

/-- **C1** (code bug).  On a resource with owners `{10, 11}` (payload 5, not
frozen), `prepare_for_mutation(R, 10)` performs exactly the ownership
transfer the claim describes — node 10 is moved from the original's owner set
to a newly allocated clone with the same payload, node 11 keeps the unchanged
original — but the call **returns `None`**: the Python body has no `return`
statement, so neither the original nor the clone is ever returned,
contradicting both the claim and the method's own docstring. -/
theorem prepare_for_mutation_transfers_but_returns_none :
    prepareForModification cowTwoOwners 0 10 =
      .ok (none,
        { res := [(0, { payload := 5, refs := [11], freeze := false }),
                  (1, { payload := 5, refs := [10], freeze := false })],
          cacheOf := [(10, 1), (11, 0)],
          next := 2 }) ∧
    (∀ rid st', prepareForModification cowTwoOwners 0 10 ≠ .ok (some rid, st')) := by
  refine ⟨by rfl, ?_⟩
  intro rid st' h
  rw [show prepareForModification cowTwoOwners 0 10 =
      .ok (none,
        { res := [(0, { payload := 5, refs := [11], freeze := false }),
                  (1, { payload := 5, refs := [10], freeze := false })],
          cacheOf := [(10, 1), (11, 0)],
          next := 2 }) from rfl] at h
  simp at h

/-! ## C10 : reading any attribute through an empty view fails -/

/-- **C10** (confirmed).  A `View` over an empty element list raises
`AttributeError` for every requested attribute: the broadcast get never
returns an empty aggregate. -/
theorem empty_view_getattr_fails (attr : String) :
    viewGetattr [] attr = .error .emptyView := rfl

/-! ## C6 : one-to-one versus one-to-many broadcast -/

theorem compatibleNesting_eq_zipCondition (viewS valS : Struct) :
    compatibleNesting viewS valS = zipCondition viewS valS := by
  cases viewS <;> cases valS <;> simp [compatibleNesting, zipCondition]

/-- **C6, counterexample.**  One element whose attribute `a` holds the
scalar `0`; the assigned value `[[7]]` has nesting shape `[[int]]`, which
does **not** structurally match the get-result's shape `[int]` (the claim
would then require one-to-many broadcast, making the element's `a` equal to
`[[7]]`).  The implementation nevertheless zips one-to-one — because the
view's shape occurs as a *member* of the value's shape — leaving the
element's `a` equal to `[7]`. -/
theorem broadcast_shape_mismatch_still_zips :
    viewSetattr [[("a", Val.int 0)]] "a" (.vlist [.vlist [.int 7]]) =
      .ok [[("a", Val.vlist [Val.int 7])]] ∧
    shapeMatches
      (nestingStructure (.vlist [Val.int 0]))
      (nestingStructure (.vlist [.vlist [.int 7]])) = false ∧
    valBeq (getAttr [("a", Val.vlist [Val.int 7])] "a") (.vlist [.vlist [.int 7]]) = false := by
  exact ⟨rfl, rfl, rfl⟩

theorem isView_of_scalar {v : Val} (h : isScalar v = true) : isView v = false := by
  cases v <;> simp [isScalar, isView] at h ⊢

theorem isNone_of_scalar {v : Val} (h : isScalar v = true) : isNone v = false := by
  cases v <;> simp [isScalar, isNone] at h ⊢

theorem nestingStructures_length (xs : List Val) :
    (nestingStructures xs).length = xs.length := by
  induction xs with
  | nil => rfl
  | cons x rest ih => simp [nestingStructures, ih]

theorem zipAssign_replicate (attr : String) (es : List Elem) (v : Val) :
    zipAssign attr es (List.replicate es.length v) =
      es.map (fun e => setAttr e attr v) := by
  induction es with
  | nil => rfl
  | cons e rest ih => simp [List.replicate_succ, zipAssign, ih]

theorem structsBeq_length {xs ys : List Struct} (h : structsBeq xs ys = true) :
    xs.length = ys.length := by
  induction xs generalizing ys with
  | nil => cases ys with
    | nil => rfl
    | cons y ys => simp [structsBeq] at h
  | cons x rest ih =>
    cases ys with
    | nil => simp [structsBeq] at h
    | cons y ys =>
      simp only [structsBeq, Bool.and_eq_true] at h
      simp [ih h.2]

theorem shapeMatches_zipCondition (v : List Struct) (valS : Struct)
    (h : shapeMatches (.slist v) valS = true) : zipCondition (.slist v) valS = true := by
  cases valS with
  | slist l =>
    simp only [shapeMatches, structBeq] at h
    have hl : (l.length == v.length) = true := by simp [structsBeq_length h]
    have h2 : structBeq (Struct.slist l) (Struct.slist v) = true := by
      simpa [structBeq] using h
    simp [zipCondition, hl, h2]
  | noneCls => simp [shapeMatches, structBeq] at h
  | intCls => simp [shapeMatches, structBeq] at h
  | strCls => simp [shapeMatches, structBeq] at h

/-- With every element exposing `attr` as a plain scalar, `__getattr__`
returns the plain list of values. -/
theorem viewGetattr_scalars (elems : List Elem) (attr : String)
    (hne : elems ≠ [])
    (hha : ∀ e ∈ elems, hasAttr e attr = true)
    (hsc : ∀ e ∈ elems, isScalar (getAttr e attr) = true) :
    viewGetattr elems attr = .ok (.values (elems.map (fun e => getAttr e attr))) := by
  obtain ⟨e0, rest, rfl⟩ := List.exists_cons_of_ne_nil hne
  have hlen : ((e0 :: rest).length == 0) = false := by simp
  have hall : (e0 :: rest).all (fun e => hasAttr e attr) = true :=
    List.all_eq_true.mpr hha
  have hview : ((e0 :: rest).map (fun e => getAttr e attr)).all isView = false := by
    simp only [List.map_cons, List.all_cons, Bool.and_eq_false_iff]
    exact Or.inl (isView_of_scalar (hsc e0 (by simp)))
  have hnone : ((e0 :: rest).map (fun e => getAttr e attr)).all isNone = false := by
    simp only [List.map_cons, List.all_cons, Bool.and_eq_false_iff]
    exact Or.inl (isNone_of_scalar (hsc e0 (by simp)))
  simp only [viewGetattr, hlen, hall, hview, hnone]
  simp

/-- **C6** (corrected).  Over a view whose attribute currently holds plain
scalar values: the spec-side structural shape match still implies a
one-to-one zip; but the implementation zips one-to-one exactly when the
value's shape is list-like of the same length and either *equals* the view's
shape or *contains it as a member*; otherwise a `View` value of size one
broadcasts its single member, a `View` value of any other size raises, and
any other value broadcasts one-to-many. -/
theorem broadcast_one_to_one_characterization
    (elems : List Elem) (attr : String) (val : Val)
    (hne : elems ≠ [])
    (hha : ∀ e ∈ elems, hasAttr e attr = true)
    (hsc : ∀ e ∈ elems, isScalar (getAttr e attr) = true) :
    (shapeMatches (nestingStructure (.vlist (elems.map (fun e => getAttr e attr))))
        (nestingStructure val) = true →
      zipCondition (nestingStructure (.vlist (elems.map (fun e => getAttr e attr))))
        (nestingStructure val) = true) ∧
    (zipCondition (nestingStructure (.vlist (elems.map (fun e => getAttr e attr))))
        (nestingStructure val) = true →
      ∃ xs, valItems val = some xs ∧
        viewSetattr elems attr val = .ok (zipAssign attr elems xs)) ∧
    (zipCondition (nestingStructure (.vlist (elems.map (fun e => getAttr e attr))))
        (nestingStructure val) = false →
      (∀ xs, val = .vview xs →
        (xs.length = 1 →
          viewSetattr elems attr val =
            .ok (elems.map (fun e => setAttr e attr (xs.headD .vnone)))) ∧
        (xs.length ≠ 1 → viewSetattr elems attr val = .error .sizeMismatch)) ∧
      ((∀ xs, val ≠ .vview xs) →
        viewSetattr elems attr val = .ok (elems.map (fun e => setAttr e attr val)))) := by
  have hget := viewGetattr_scalars elems attr hne hha hsc
  have hset : ∀ plan,
      nestingValue elems.length (.vlist (elems.map (fun e => getAttr e attr))) val = plan →
      viewSetattr elems attr val =
        match plan with
        | .error e => .error e
        | .ok p => .ok (zipAssign attr elems p) := by
    intro plan hplan
    simp only [viewSetattr, hget, hplan]
  refine ⟨?_, ?_, ?_⟩
  · intro hm
    exact shapeMatches_zipCondition _ _ hm
  · intro hz
    have hcompat : compatibleNesting
        (nestingStructure (.vlist (elems.map (fun e => getAttr e attr))))
        (nestingStructure val) = true := by
      rw [compatibleNesting_eq_zipCondition]; exact hz
    have hitems : ∃ xs, valItems val = some xs := by
      cases val with
      | vlist xs => exact ⟨xs, rfl⟩
      | vview xs => exact ⟨xs, rfl⟩
      | vnone => simp [zipCondition, nestingStructure] at hz
      | int a => simp [zipCondition, nestingStructure] at hz
      | str a => simp [zipCondition, nestingStructure] at hz
    obtain ⟨xs, hxs⟩ := hitems
    have hplan : nestingValue elems.length
        (.vlist (elems.map (fun e => getAttr e attr))) val = .ok xs := by
      simp [nestingValue, hcompat, hxs]
    refine ⟨xs, hxs, ?_⟩
    rw [hset _ hplan]
  · intro hz
    have hcompat : compatibleNesting
        (nestingStructure (.vlist (elems.map (fun e => getAttr e attr))))
        (nestingStructure val) = false := by
      rw [compatibleNesting_eq_zipCondition]; exact hz
    constructor
    · rintro xs rfl
      simp only [nestingStructure] at hcompat
      constructor
      · intro h1
        have hplan : nestingValue elems.length
            (.vlist (elems.map (fun e => getAttr e attr))) (.vview xs) =
            .ok (List.replicate elems.length (xs.headD .vnone)) := by
          simp [nestingValue, nestingStructure, hcompat, h1]
        rw [hset _ hplan]
        simp [zipAssign_replicate]
      · intro h1
        have hplan : nestingValue elems.length
            (.vlist (elems.map (fun e => getAttr e attr))) (.vview xs) =
            .error .sizeMismatch := by
          simp [nestingValue, nestingStructure, hcompat, h1]
        rw [hset _ hplan]
    · intro hnv
      have hplan : nestingValue elems.length
          (.vlist (elems.map (fun e => getAttr e attr))) val =
          .ok (List.replicate elems.length val) := by
        cases val with
        | vview xs => exact absurd rfl (hnv xs)
        | vnone =>
          simp only [nestingStructure] at hcompat
          simp [nestingValue, nestingStructure, hcompat, nestingStructures_length]
        | int a =>
          simp only [nestingStructure] at hcompat
          simp [nestingValue, nestingStructure, hcompat, nestingStructures_length]
        | str a =>
          simp only [nestingStructure] at hcompat
          simp [nestingValue, nestingStructure, hcompat, nestingStructures_length]
        | vlist xs =>
          simp only [nestingStructure] at hcompat
          simp [nestingValue, nestingStructure, hcompat, nestingStructures_length]
      rw [hset _ hplan]
      simp [zipAssign_replicate]

/-- Witness for `broadcast_one_to_one_characterization`: two elements with
scalar attribute `a`; the value `[5, 6]` shape-matches and is zipped
one-to-one. -/
theorem broadcast_one_to_one_characterization_witness :
    ([[("a", Val.int 1)], [("a", Val.int 2)]] : List Elem) ≠ [] ∧
    (∀ e ∈ ([[("a", Val.int 1)], [("a", Val.int 2)]] : List Elem), hasAttr e "a" = true) ∧
    (∀ e ∈ ([[("a", Val.int 1)], [("a", Val.int 2)]] : List Elem),
      isScalar (getAttr e "a") = true) ∧
    (zipCondition
        (nestingStructure (.vlist (([[("a", Val.int 1)], [("a", Val.int 2)]] : List Elem).map
          (fun e => getAttr e "a"))))
        (nestingStructure (.vlist [.int 5, .int 6])) = true →
      ∃ xs, valItems (Val.vlist [.int 5, .int 6]) = some xs ∧
        viewSetattr [[("a", Val.int 1)], [("a", Val.int 2)]] "a" (.vlist [.int 5, .int 6]) =
          .ok (zipAssign "a" [[("a", Val.int 1)], [("a", Val.int 2)]] xs)) := by
  have h := broadcast_one_to_one_characterization
    [[("a", Val.int 1)], [("a", Val.int 2)]] "a" (.vlist [.int 5, .int 6])
    (by simp) (by decide) (by decide)
  exact ⟨by simp, by decide, by decide, h.2.1⟩

/-! ## C5 : name conflict resolution -/

theorem strAppend0 (y : String) : y ++ "_(" ++ "0" ++ ")" = y ++ "_(0)" := by
  apply String.ext
  simp [String.data_append, List.append_assoc]

theorem strAppend1 (y : String) : y ++ "_(" ++ "1" ++ ")" = y ++ "_(1)" := by
  apply String.ext
  simp [String.data_append, List.append_assoc]

theorem suffix01_ne (x : String) : ¬ (x ++ "_(" ++ "0" ++ ")" = x ++ "_(" ++ "1" ++ ")") := by
  intro h
  have h2 := congrArg String.data h
  simp only [String.data_append, List.append_assoc] at h2
  have h3 := List.append_cancel_left (List.append_cancel_left h2)
  exact absurd h3 (by decide)

/-- **C5** (confirmed).  Registering a type scope holding exactly two
descendants `a` and `b`, both labeled `x`, terminates (one loop round) and
exposes the names `x_(0)` for `a` and `x_(1)` for `b`, in insertion order;
and in general a descendant whose scope group has size one exposes the
group's name — its label — unchanged. -/
theorem register_two_same_labels (x : String) (a b : Nat) (hab : a ≠ b) :
    (registerTS [(a, x), (b, x)] [a, b] 1 =
        some [(a, ⟨x, [a, b]⟩), (b, ⟨x, [a, b]⟩)] ∧
      exposedName [(a, x), (b, x)] [(a, ⟨x, [a, b]⟩), (b, ⟨x, [a, b]⟩)] a = x ++ "_(0)" ∧
      exposedName [(a, x), (b, x)] [(a, ⟨x, [a, b]⟩), (b, ⟨x, [a, b]⟩)] b = x ++ "_(1)") ∧
    (∀ (labels : List (Nat × String)) (scopes : ScopeMap) (d : Nat) (sc : NScope),
      assocFind scopes d = some sc → sc.members.length = 1 →
      exposedName labels scopes d = sc.sname) := by
  have hba : b ≠ a := fun h => hab h.symm
  have hna : exposedName [(a, x), (b, x)] [(a, ⟨x, [a, b]⟩), (b, ⟨x, [a, b]⟩)] a
      = x ++ "_(" ++ "0" ++ ")" := by
    simp [exposedName, assocFind, idxOfN]
    rfl
  have hnb : exposedName [(a, x), (b, x)] [(a, ⟨x, [a, b]⟩), (b, ⟨x, [a, b]⟩)] b
      = x ++ "_(" ++ "1" ++ ")" := by
    simp [exposedName, assocFind, idxOfN, hab, hba]
    rfl
  constructor
  · refine ⟨?_, by rw [hna, strAppend0], by rw [hnb, strAppend1]⟩
    have hg0 : groupByName (fun d => exposedName [(a, x), (b, x)] [] d) [a, b]
        = [(x, [a, b])] := by
      simp [groupByName, exposedName, assocFind, insertGrp, hab]
    have hs1 : assignAll [] [(x, [a, b])]
        = [(a, ⟨x, [a, b]⟩), (b, ⟨x, [a, b]⟩)] := by
      simp [assignAll, assignGroup, assocSet, hab]
    have hne01 : ((x ++ "_(" ++ "0" ++ ")" : String) == (x ++ "_(" ++ "1" ++ ")")) = false :=
      beq_eq_false_iff_ne.mpr (suffix01_ne x)
    have hg1 : groupByName
        (fun d => exposedName [(a, x), (b, x)]
          [(a, ⟨x, [a, b]⟩), (b, ⟨x, [a, b]⟩)] d) [a, b]
        = [(x ++ "_(" ++ "0" ++ ")", [a]), (x ++ "_(" ++ "1" ++ ")", [b])] := by
      simp [groupByName, insertGrp, hna, hnb, hne01]
    simp only [registerTS, hg0, hs1, registerLoop, hg1]
    simp
  · intro labels scopes d sc h1 h2
    simp [exposedName, h1, h2]

/-- Witness for `register_two_same_labels` at `x := "x"`, `a := 0`,
`b := 1`. -/
theorem register_two_same_labels_witness :
    (0 : Nat) ≠ 1 ∧
    (registerTS [(0, "x"), (1, "x")] [0, 1] 1 =
        some [(0, ⟨"x", [0, 1]⟩), (1, ⟨"x", [0, 1]⟩)] ∧
      exposedName [(0, "x"), (1, "x")] [(0, ⟨"x", [0, 1]⟩), (1, ⟨"x", [0, 1]⟩)] 0
        = "x" ++ "_(0)" ∧
      exposedName [(0, "x"), (1, "x")] [(0, ⟨"x", [0, 1]⟩), (1, ⟨"x", [0, 1]⟩)] 1
        = "x" ++ "_(1)") :=
  ⟨by decide, (register_two_same_labels "x" 0 1 (by decide)).1⟩

/-! ## C2 : atomicity of the `attach(copy=False)` failure paths -/

theorem detachOne_error_stuck {h : AHeap} {p it : Nat} {e : AErr} {h' : AHeap}
    (H : detachOne h p it = .error (e, h')) : e = .stuck := by
  unfold detachOne at H
  split at H
  · dsimp only at H
    split at H
    · split at H
      · simp at H
      · simp at H; exact H.1.symm
    · simp at H
  · simp at H; exact H.1.symm

theorem detachItems_error_stuck {p : Nat} {items : List Nat} {h : AHeap} {e : AErr} {h' : AHeap}
    (H : detachItems p h items = .error (e, h')) : e = .stuck := by
  induction items generalizing h with
  | nil => simp [detachItems] at H
  | cons it rest ih =>
    unfold detachItems at H
    split at H
    · rename_i e1 heq
      simp at H
      subst H
      exact detachOne_error_stuck heq
    · exact ih H

theorem detachA_error_kinds {h : AHeap} {p : Nat} {items : List Nat} {e : AErr} {h' : AHeap}
    (H : detachA h p items = .error (e, h')) : e = .stuck ∨ e = .launchedErr := by
  unfold detachA at H
  split at H
  · simp at H; exact Or.inl H.1.symm
  · simp at H; exact Or.inr H.1.symm
  · exact Or.inl (detachItems_error_stuck H)

theorem detachA_error_kinds2 {h : AHeap} {p : Nat} {items : List Nat} {ep : AErr × AHeap}
    (H : detachA h p items = .error ep) : ep.1 = .stuck ∨ ep.1 = .launchedErr := by
  obtain ⟨e, h1⟩ := ep
  exact detachA_error_kinds H

theorem detachOne_preserves {h : AHeap} {p it : Nat} {h' : AHeap} (r : Nat)
    (hp : r ≠ p) (hit : r ≠ it) (H : detachOne h p it = .ok h') :
    assocFind h' r = assocFind h r := by
  unfold detachOne at H
  split at H
  · dsimp only at H
    split at H
    · split at H
      · simp at H
        subst H
        rw [assocFind_set_ne _ _ _ _ (Ne.symm hit), assocFind_set_ne _ _ _ _ (Ne.symm hp)]
      · simp at H
    · simp at H
      subst H
      rw [assocFind_set_ne _ _ _ _ (Ne.symm hp)]
  · simp at H

theorem detachA_single_preserves {h : AHeap} {q it : Nat} {h' : AHeap} (r : Nat)
    (hp : r ≠ q) (hit : r ≠ it) (H : detachA h q [it] = .ok h') :
    assocFind h' r = assocFind h r := by
  unfold detachA at H
  split at H
  · simp at H
  · simp at H
  · unfold detachItems at H
    split at H
    · simp at H
    · rename_i h1 heq
      unfold detachItems at H
      simp at H
      subst H
      exact detachOne_preserves r hp hit heq

/-- Error analysis of the common tail of `attach`: it never raises the cycle
error, and when it raises the type error the heap it leaves behind is exactly
the original one when the item had no parent, and exactly the result of
detaching the item from its parent when it had one. -/
theorem attachCommon_error_analysis {h : AHeap} {recv item : Nat} {e : AErr} {h' : AHeap}
    (H : attachCommon h recv item = .error (e, h')) :
    e ≠ .cycleErr ∧
    (e = .typeErr → ∀ cn, assocFind h item = some cn →
      (cn.parentA = none → h' = h) ∧
      (∀ q, cn.parentA = some q → detachA h q [item] = .ok h')) := by
  unfold attachCommon at H
  split at H
  · simp at H
    refine ⟨by simp [H.1.symm], ?_⟩
    intro he; simp [H.1.symm] at he
  · rename_i cn hcn
    dsimp only at H
    split at H
    · rename_i e1 heq
      have hkind : e1.1 = AErr.stuck ∨ e1.1 = AErr.launchedErr := by
        rcases hq : cn.parentA with _ | q
        · simp [hq] at heq
        · simp only [hq] at heq
          exact detachA_error_kinds2 heq
      have hE : e1 = (e, h') := by simpa using H
      rw [hE] at hkind
      simp at hkind
      refine ⟨?_, ?_⟩
      · rcases hkind with h1 | h1 <;> simp [h1]
      · intro ht
        rcases hkind with h1 | h1 <;> simp [h1] at ht
    · rename_i h1 heq
      split at H
      · simp at H
        refine ⟨by simp [H.1.symm], ?_⟩
        intro he; simp [H.1.symm] at he
      · rename_i rn1 hrn
        split at H
        · simp at H
          obtain ⟨he, hh⟩ := H
          subst hh
          refine ⟨by simp [← he], ?_⟩
          intro _ cn2 hcn2
          rw [hcn] at hcn2
          injection hcn2 with hcn2
          subst hcn2
          constructor
          · intro hpnone
            simp only [hpnone] at heq
            simp at heq
            exact heq.symm
          · intro q hpq
            simp only [hpq] at heq
            exact heq
        · split at H
          · simp at H
            refine ⟨by simp [H.1.symm], ?_⟩
            intro he; simp [H.1.symm] at he
          · split at H
            · simp at H
            · simp at H
              refine ⟨by simp [H.1.symm], ?_⟩
              intro he; simp [H.1.symm] at he

theorem attachNoCopy_error_analysis {h : AHeap} {recv item : Nat} {e : AErr} {h' : AHeap}
    (H : attachNoCopy h recv item = .error (e, h')) :
    (e = .cycleErr → h' = h) ∧
    (e = .typeErr → ∀ cn, assocFind h item = some cn →
      (cn.parentA = none → h' = h) ∧
      (∀ q, cn.parentA = some q → detachA h q [item] = .ok h')) := by
  unfold attachNoCopy at H
  split at H
  · simp at H
    refine ⟨?_, ?_⟩ <;> intro he <;> simp [H.1.symm] at he
  · split at H
    · simp at H
      refine ⟨fun _ => H.2.symm, ?_⟩
      intro he; simp [H.1.symm] at he
    · have := attachCommon_error_analysis H
      exact ⟨fun he => absurd he this.1, this.2⟩

theorem attachOneA_false_error {fuel : Nat} {st : AState} {recv item : Nat}
    {e : AErr} {st' : AState}
    (H : attachOneA fuel st recv item false = .error (e, st')) :
    attachNoCopy st.heap recv item = .error (e, st'.heap) ∧ st'.next = st.next := by
  unfold attachOneA at H
  simp only [if_neg (by simp : ¬ (false = true))] at H
  split at H
  · rename_i e1 heq
    have hE : ((e1.1, { st with heap := e1.2 }) : AErr × AState) = (e, st') := by
      simpa using H
    have h1 : e1.1 = e := congrArg Prod.fst hE
    have h2 : ({ st with heap := e1.2 } : AState) = st' := congrArg Prod.snd hE
    constructor
    · rw [← h1, ← h2]
      exact heq
    · rw [← h2]
  · simp at H

theorem AState_eq {s t : AState} (h1 : s.heap = t.heap) (h2 : s.next = t.next) : s = t := by
  cases s; cases t; simp_all

/-- **C2** (corrected).  When `attach(item, copy=False)` fails: a cycle
failure leaves the state exactly as it was; a type-mismatch failure leaves
the state exactly as it was *only when the item had no parent at the call* —
when the item had a parent `q`, the state at the raise is exactly the result
of `q.detach(item)` (the item's parent edge is already cleared and it has
been removed from `q`'s role collection), though the receiver's own
collections are untouched whenever the receiver is neither `q` nor the
item. -/
theorem attach_nocopy_failure_atomicity (fuel : Nat) (st : AState) (recv item : Nat)
    (e : AErr) (st' : AState)
    (H : attachOneA fuel st recv item false = .error (e, st')) :
    (e = .cycleErr → st' = st) ∧
    (e = .typeErr → ∀ cn, assocFind st.heap item = some cn →
      (cn.parentA = none → st' = st) ∧
      (∀ q, cn.parentA = some q →
        detachA st.heap q [item] = .ok st'.heap ∧ st'.next = st.next ∧
        (recv ≠ q → recv ≠ item → assocFind st'.heap recv = assocFind st.heap recv))) := by
  obtain ⟨H1, Hnext⟩ := attachOneA_false_error H
  have hA := attachNoCopy_error_analysis H1
  constructor
  · intro he
    exact AState_eq (hA.1 he) Hnext
  · intro he cn hcn
    have h2 := hA.2 he cn hcn
    refine ⟨fun hp => AState_eq (h2.1 hp) Hnext, ?_⟩
    intro q hq
    refine ⟨h2.2 q hq, Hnext, ?_⟩
    intro hr1 hr2
    exact detachA_single_preserves recv hr1 hr2 (h2.2 q hq)

/-- Witness for `attach_nocopy_failure_atomicity`: a parentless item of the
wrong kind raises the type error with the state unchanged. -/
theorem attach_nocopy_failure_atomicity_witness :
    (AErr.typeErr = AErr.cycleErr →
      (⟨[(0, { kind := 5, parentA := none, roles := [], isWorld := false, builtA := false, payload := 0 }), (1, { kind := 0, parentA := none, roles := [{ accepts := [9], isTendonRole := false, children := [] }], isWorld := false, builtA := false, payload := 0 })], 2⟩ : AState) =
      ⟨[(0, { kind := 5, parentA := none, roles := [], isWorld := false, builtA := false, payload := 0 }), (1, { kind := 0, parentA := none, roles := [{ accepts := [9], isTendonRole := false, children := [] }], isWorld := false, builtA := false, payload := 0 })], 2⟩) ∧
    (AErr.typeErr = AErr.typeErr → ∀ cn,
      assocFind ([(0, { kind := 5, parentA := none, roles := [], isWorld := false, builtA := false, payload := 0 }), (1, { kind := 0, parentA := none, roles := [{ accepts := [9], isTendonRole := false, children := [] }], isWorld := false, builtA := false, payload := 0 })] : AHeap) 0 = some cn →
      (cn.parentA = none →
        (⟨[(0, { kind := 5, parentA := none, roles := [], isWorld := false, builtA := false, payload := 0 }), (1, { kind := 0, parentA := none, roles := [{ accepts := [9], isTendonRole := false, children := [] }], isWorld := false, builtA := false, payload := 0 })], 2⟩ : AState) =
        ⟨[(0, { kind := 5, parentA := none, roles := [], isWorld := false, builtA := false, payload := 0 }), (1, { kind := 0, parentA := none, roles := [{ accepts := [9], isTendonRole := false, children := [] }], isWorld := false, builtA := false, payload := 0 })], 2⟩) ∧
      (∀ q, cn.parentA = some q →
        detachA ([(0, { kind := 5, parentA := none, roles := [], isWorld := false, builtA := false, payload := 0 }), (1, { kind := 0, parentA := none, roles := [{ accepts := [9], isTendonRole := false, children := [] }], isWorld := false, builtA := false, payload := 0 })] : AHeap) q [0] = .ok ([(0, { kind := 5, parentA := none, roles := [], isWorld := false, builtA := false, payload := 0 }), (1, { kind := 0, parentA := none, roles := [{ accepts := [9], isTendonRole := false, children := [] }], isWorld := false, builtA := false, payload := 0 })] : AHeap) ∧ (2 : Nat) = 2 ∧
        (1 ≠ q → (1 : Nat) ≠ 0 → assocFind ([(0, { kind := 5, parentA := none, roles := [], isWorld := false, builtA := false, payload := 0 }), (1, { kind := 0, parentA := none, roles := [{ accepts := [9], isTendonRole := false, children := [] }], isWorld := false, builtA := false, payload := 0 })] : AHeap) 1 = assocFind ([(0, { kind := 5, parentA := none, roles := [], isWorld := false, builtA := false, payload := 0 }), (1, { kind := 0, parentA := none, roles := [{ accepts := [9], isTendonRole := false, children := [] }], isWorld := false, builtA := false, payload := 0 })] : AHeap) 1))) :=
  attach_nocopy_failure_atomicity 1
    ⟨[(0, { kind := 5, parentA := none, roles := [], isWorld := false, builtA := false, payload := 0 }), (1, { kind := 0, parentA := none, roles := [{ accepts := [9], isTendonRole := false, children := [] }], isWorld := false, builtA := false, payload := 0 })], 2⟩
    1 0 .typeErr
    ⟨[(0, { kind := 5, parentA := none, roles := [], isWorld := false, builtA := false, payload := 0 }), (1, { kind := 0, parentA := none, roles := [{ accepts := [9], isTendonRole := false, children := [] }], isWorld := false, builtA := false, payload := 0 })], 2⟩
    rfl

/-- **C2, counterexample.**  `P.attach(x, copy=False)` where `x` (kind 5) is
a child of `Q` and `P`'s only role accepts kind 9: the call fails with the
type error, but at the raise the tree has changed — `x` has been removed
from `Q`'s role collection and its parent edge is cleared. -/
theorem attach_type_error_after_detach :
    attachOneA 10
      ⟨[(0, { kind := 0, parentA := none, roles := [{ accepts := [5], isTendonRole := false, children := [1] }], isWorld := false, builtA := false, payload := 0 }),
        (1, { kind := 5, parentA := some 0, roles := [], isWorld := false, builtA := false, payload := 0 }),
        (2, { kind := 0, parentA := none, roles := [{ accepts := [9], isTendonRole := false, children := [] }], isWorld := false, builtA := false, payload := 0 })], 3⟩
      2 1 false =
      .error (.typeErr,
        ⟨[(0, { kind := 0, parentA := none, roles := [{ accepts := [5], isTendonRole := false, children := [] }], isWorld := false, builtA := false, payload := 0 }),
          (1, { kind := 5, parentA := none, roles := [], isWorld := false, builtA := false, payload := 0 }),
          (2, { kind := 0, parentA := none, roles := [{ accepts := [9], isTendonRole := false, children := [] }], isWorld := false, builtA := false, payload := 0 })], 3⟩) ∧
    (⟨[(0, { kind := 0, parentA := none, roles := [{ accepts := [5], isTendonRole := false, children := [] }], isWorld := false, builtA := false, payload := 0 }),
       (1, { kind := 5, parentA := none, roles := [], isWorld := false, builtA := false, payload := 0 }),
       (2, { kind := 0, parentA := none, roles := [{ accepts := [9], isTendonRole := false, children := [] }], isWorld := false, builtA := false, payload := 0 })], 3⟩ : AState) ≠
    ⟨[(0, { kind := 0, parentA := none, roles := [{ accepts := [5], isTendonRole := false, children := [1] }], isWorld := false, builtA := false, payload := 0 }),
      (1, { kind := 5, parentA := some 0, roles := [], isWorld := false, builtA := false, payload := 0 }),
      (2, { kind := 0, parentA := none, roles := [{ accepts := [9], isTendonRole := false, children := [] }], isWorld := false, builtA := false, payload := 0 })], 3⟩ :=
  ⟨rfl, by decide⟩

/-! ## C4 : structural mutation after finalization -/

/-- **C4** (corrected).  After the owning tree has been finalized
(`_launched` is true), `detach` fails before touching anything — but
`attach` performs **no** finalization check (the guard is commented out in
the source) and succeeds, mutating the finalized tree: attaching a fresh
kind-5 node to the built world root appends it to the role collection. -/
theorem detach_fails_attach_skips_finalize_check :
    (∀ (h : AHeap) (p : Nat) (items : List Nat), launchedOf h p = some true →
      detachA h p items = .error (.launchedErr, h)) ∧
    (launchedOf
        [(0, { kind := 0, parentA := none, roles := [{ accepts := [5], isTendonRole := false, children := [1] }], isWorld := true, builtA := true, payload := 0 }),
         (1, { kind := 5, parentA := some 0, roles := [], isWorld := false, builtA := false, payload := 0 }),
         (2, { kind := 5, parentA := none, roles := [], isWorld := false, builtA := false, payload := 0 })] 0 = some true ∧
      attachOneA 1
        ⟨[(0, { kind := 0, parentA := none, roles := [{ accepts := [5], isTendonRole := false, children := [1] }], isWorld := true, builtA := true, payload := 0 }),
          (1, { kind := 5, parentA := some 0, roles := [], isWorld := false, builtA := false, payload := 0 }),
          (2, { kind := 5, parentA := none, roles := [], isWorld := false, builtA := false, payload := 0 })], 3⟩ 0 2 false =
        .ok ⟨[(0, { kind := 0, parentA := none, roles := [{ accepts := [5], isTendonRole := false, children := [1, 2] }], isWorld := true, builtA := true, payload := 0 }),
          (1, { kind := 5, parentA := some 0, roles := [], isWorld := false, builtA := false, payload := 0 }),
          (2, { kind := 5, parentA := some 0, roles := [], isWorld := false, builtA := false, payload := 0 })], 3⟩) := by
  refine ⟨?_, rfl, rfl⟩
  intro h p items hl
  unfold detachA
  rw [hl]

/-- Witness for `detach_fails_attach_skips_finalize_check`: detaching from
the built world root raises immediately with the heap unchanged. -/
theorem detach_fails_after_finalize_witness :
    detachA
      [(0, { kind := 0, parentA := none, roles := [{ accepts := [5], isTendonRole := false, children := [1] }], isWorld := true, builtA := true, payload := 0 }),
       (1, { kind := 5, parentA := some 0, roles := [], isWorld := false, builtA := false, payload := 0 })] 0 [1] =
      .error (.launchedErr,
        [(0, { kind := 0, parentA := none, roles := [{ accepts := [5], isTendonRole := false, children := [1] }], isWorld := true, builtA := true, payload := 0 }),
         (1, { kind := 5, parentA := some 0, roles := [], isWorld := false, builtA := false, payload := 0 })]) :=
  detach_fails_attach_skips_finalize_check.1 _ 0 [1] rfl

/-- **C4, counterexample.**  The claim says *every* structural mutation on a
finalized tree fails; but `attach(copy=False)` of a fresh node into the
built world root succeeds and changes the tree. -/
theorem attach_succeeds_on_finalized_tree :
    launchedOf
      [(0, { kind := 0, parentA := none, roles := [{ accepts := [5], isTendonRole := false, children := [1] }], isWorld := true, builtA := true, payload := 0 }),
       (1, { kind := 5, parentA := some 0, roles := [], isWorld := false, builtA := false, payload := 0 }),
       (2, { kind := 5, parentA := none, roles := [], isWorld := false, builtA := false, payload := 0 })] 0 = some true ∧
    (∃ st', attachOneA 1
        ⟨[(0, { kind := 0, parentA := none, roles := [{ accepts := [5], isTendonRole := false, children := [1] }], isWorld := true, builtA := true, payload := 0 }),
          (1, { kind := 5, parentA := some 0, roles := [], isWorld := false, builtA := false, payload := 0 }),
          (2, { kind := 5, parentA := none, roles := [], isWorld := false, builtA := false, payload := 0 })], 3⟩ 0 2 false = .ok st' ∧
      st' ≠ ⟨[(0, { kind := 0, parentA := none, roles := [{ accepts := [5], isTendonRole := false, children := [1] }], isWorld := true, builtA := true, payload := 0 }),
          (1, { kind := 5, parentA := some 0, roles := [], isWorld := false, builtA := false, payload := 0 }),
          (2, { kind := 5, parentA := none, roles := [], isWorld := false, builtA := false, payload := 0 })], 3⟩) :=
  ⟨rfl,
    ⟨⟨[(0, { kind := 0, parentA := none, roles := [{ accepts := [5], isTendonRole := false, children := [1, 2] }], isWorld := true, builtA := true, payload := 0 }),
       (1, { kind := 5, parentA := some 0, roles := [], isWorld := false, builtA := false, payload := 0 }),
       (2, { kind := 5, parentA := some 0, roles := [], isWorld := false, builtA := false, payload := 0 })], 3⟩,
      rfl, by decide⟩⟩


/-! ## C8 : the re-migration guard of `_migrate`

General lemmas about the reference-maintenance cluster of the B universe:
none of `detach` / `_decouple` / the `target` setter allocates a camera or
advances the id counter, and a successful `target` assignment leaves the
camera pointing at the requested reference. -/

theorem assocSet_length {α : Type} (m : List (Nat × α)) (k : Nat) (v' : α) {v : α}
    (h : assocFind m k = some v) : (assocSet m k v').length = m.length := by
  induction m with
  | nil => simp [assocFind] at h
  | cons p rest ih =>
    by_cases hk : p.1 = k
    · simp [assocSet, hk]
    · simp only [assocFind, hk, if_false] at h
      · simp [assocSet, hk, ih h]

theorem BShape_refl (st : BState) : BShape st st := ⟨rfl, rfl⟩

theorem BShape_trans {s1 s2 s3 : BState} (h1 : BShape s1 s2) (h2 : BShape s2 s3) :
    BShape s1 s3 := ⟨h2.1.trans h1.1, h2.2.trans h1.2⟩

theorem BShape_setBody (st : BState) (b : Nat) (nd : BodyB) :
    BShape st (setBody st b nd) := ⟨rfl, rfl⟩

theorem BShape_setCam {st : BState} {c : Nat} {cm : CamB} (h : getCam st c = some cm)
    (cm' : CamB) : BShape st (setCam st c cm') := ⟨rfl, assocSet_length _ _ _ h⟩

theorem getCam_setCam_self (st : BState) (c : Nat) (cm : CamB) :
    getCam (setCam st c cm) c = some cm := assocFind_set_self _ _ _

theorem getCam_setCam_ne (st : BState) (c : Nat) (cm : CamB) (d : Nat) (h : c ≠ d) :
    getCam (setCam st c cm) d = getCam st d := assocFind_set_ne _ _ _ _ h

theorem bcluster_shape : ∀ fuel : Nat,
    (∀ st c tgt st', targetFset fuel st c tgt = .ok st' → BShape st st') ∧
    (∀ st c ref st', camSetattrTarget fuel st c ref = .ok st' → BShape st st') ∧
    (∀ st c st', decoupleCam fuel st c = .ok st' → BShape st st') ∧
    (∀ st b st', decoupleDescB fuel st b = .ok st' → BShape st st') ∧
    (∀ st cs st', decoupleList fuel st cs = .ok st' → BShape st st') ∧
    (∀ st p items st', detachB fuel st p items = .ok st' → BShape st st') ∧
    (∀ st p items st', detachBItems fuel st p items = .ok st' → BShape st st') ∧
    (∀ st p item st', detachBItem fuel st p item = .ok st' → BShape st st') := by
  intro fuel
  induction fuel with
  | zero =>
    refine ⟨fun st c tgt st' h => ?_, fun st c ref st' h => ?_, fun st c st' h => ?_,
            fun st b st' h => ?_, fun st cs st' h => ?_, fun st p items st' h => ?_,
            fun st p items st' h => ?_, fun st p item st' h => ?_⟩ <;>
      simp [targetFset, camSetattrTarget, decoupleCam, decoupleDescB, decoupleList,
            detachB, detachBItems, detachBItem] at h
  | succ f ih =>
    obtain ⟨ihT, ihS, ihC, ihD, ihL, ihB, ihI, ihE⟩ := ih
    refine ⟨?_, ?_, ?_, ?_, ?_, ?_, ?_, ?_⟩
    · intro st c tgt st' h
      unfold targetFset at h
      dsimp only at h
      split at h
      · exact Except.noConfusion h
      · rename_i cm hcm
        split at h
        · exact Except.noConfusion h
        · split at h
          · exact Except.noConfusion h
          · split at h
            · exact Except.noConfusion h
            · rename_i st1 hst1
              have h1 : BShape st st1 := by
                split at hst1
                · exact ihB _ _ _ _ hst1
                · injection hst1 with e
                  subst e
                  exact BShape_refl _
              split at h
              · exact Except.noConfusion h
              · rename_i st2 hst2
                have h2 : BShape st1 st2 := by
                  split at hst2
                  · split at hst2
                    · exact Except.noConfusion hst2
                    · injection hst2 with e
                      subst e
                      exact BShape_setBody _ _ _
                  · injection hst2 with e
                    subst e
                    exact BShape_refl _
                split at h
                · exact Except.noConfusion h
                · rename_i cm2 hcm2
                  injection h with e
                  subst e
                  exact BShape_trans (BShape_trans h1 h2) (BShape_setCam hcm2 _)
    · intro st c ref st' h
      unfold camSetattrTarget at h
      split at h
      · exact Except.noConfusion h
      · rename_i cm hcm
        split at h
        · exact ihT _ _ _ _ h
        · split at h
          · exact ihT _ _ _ _ h
          · rename_i r
            split at h
            · exact Except.noConfusion h
            · rename_i d hd
              split at h
              · exact Except.noConfusion h
              · exact ihT _ _ _ _ h
    · intro st c st' h
      unfold decoupleCam at h
      split at h
      · exact Except.noConfusion h
      · rename_i cm hcm
        split at h
        · injection h with e
          subst e
          exact BShape_refl _
        · rename_i t
          split at h
          · exact Except.noConfusion h
          · rename_i d hd
            split at h
            · split at h
              · exact Except.noConfusion h
              · rename_i st1 hst1
                exact BShape_trans (ihB _ _ _ _ hst1) (ihS _ _ _ _ h)
            · injection h with e
              subst e
              exact BShape_refl _
    · intro st b st' h
      unfold decoupleDescB at h
      split at h
      · exact Except.noConfusion h
      · rename_i cs hcs
        exact ihL _ _ _ h
    · intro st cs st' h
      cases cs with
      | nil =>
        unfold decoupleList at h
        injection h with e
        subst e
        exact BShape_refl _
      | cons c rest =>
        unfold decoupleList at h
        split at h
        · exact Except.noConfusion h
        · rename_i st1 hst1
          exact BShape_trans (ihC _ _ _ hst1) (ihL _ _ _ h)
    · intro st p items st' h
      unfold detachB at h
      split at h
      · exact Except.noConfusion h
      · rename_i st1 hst1
        exact BShape_trans (ihI _ _ _ _ hst1) (ihD _ _ _ h)
    · intro st p items st' h
      cases items with
      | nil =>
        unfold detachBItems at h
        injection h with e
        subst e
        exact BShape_refl _
      | cons item rest =>
        unfold detachBItems at h
        split at h
        · exact Except.noConfusion h
        · rename_i st1 hst1
          exact BShape_trans (ihE _ _ _ _ hst1) (ihI _ _ _ _ h)
    · intro st p item st' h
      cases item with
      | body b =>
        unfold detachBItem at h
        split at h
        · exact Except.noConfusion h
        · rename_i pn hpn
          split at h
          · dsimp only at h
            split at h
            · exact Except.noConfusion h
            · rename_i bn hbn
              have h2 := ihD _ _ _ h
              exact h2
          · injection h with e
            subst e
            exact BShape_refl _
      | cam c =>
        unfold detachBItem at h
        split at h
        · exact Except.noConfusion h
        · rename_i pn hpn
          split at h
          · dsimp only at h
            split at h
            · exact Except.noConfusion h
            · rename_i st1 hst1
              have h1 : BShape st st1 := by
                split at hst1
                · exact Except.noConfusion hst1
                · rename_i cm hcm
                  exact BShape_trans (BShape_trans (BShape_setBody _ _ _)
                    (BShape_setCam hcm _)) (ihC _ _ _ hst1)
              split at h
              · exact Except.noConfusion h
              · rename_i pn1 hpn1
                split at h
                · exact BShape_trans h1 (BShape_trans (BShape_setBody _ _ _) (ihS _ _ _ _ h))
                · injection h with e
                  subst e
                  exact h1
          · dsimp only at h
            split at h
            · exact Except.noConfusion h
            · rename_i pn1 hpn1
              split at h
              · exact BShape_trans (BShape_setBody _ _ _) (ihS _ _ _ _ h)
              · injection h with e
                subst e
                exact BShape_refl _

theorem targetFset_ok_target (fuel : Nat) (st : BState) (c : Nat) (tgt : Option Nat)
    (st' : BState) (h : targetFset fuel st c tgt = .ok st') :
    ∃ cm', getCam st' c = some cm' ∧ cm'.target = tgt := by
  cases fuel with
  | zero => simp [targetFset] at h
  | succ f =>
    unfold targetFset at h
    dsimp only at h
    split at h
    · exact Except.noConfusion h
    · split at h
      · exact Except.noConfusion h
      · split at h
        · exact Except.noConfusion h
        · split at h
          · exact Except.noConfusion h
          · split at h
            · exact Except.noConfusion h
            · split at h
              · exact Except.noConfusion h
              · rename_i cm2 hcm2
                injection h with e
                subst e
                exact ⟨_, getCam_setCam_self _ _ _, rfl⟩

theorem camSetattrTarget_ok_target (fuel : Nat) (st : BState) (c : Nat) (ref : Option Nat)
    (st' : BState) (h : camSetattrTarget fuel st c ref = .ok st') :
    ∃ cm', getCam st' c = some cm' ∧ cm'.target = ref := by
  cases fuel with
  | zero => simp [camSetattrTarget] at h
  | succ f =>
    unfold camSetattrTarget at h
    split at h
    · exact Except.noConfusion h
    · split at h
      · exact targetFset_ok_target f _ _ _ _ h
      · split at h
        · exact targetFset_ok_target f _ _ _ _ h
        · split at h
          · exact Except.noConfusion h
          · split at h
            · exact Except.noConfusion h
            · exact targetFset_ok_target f _ _ _ _ h

theorem finalizeMigration_shape {st : BState} {c : Nat} {st' : BState}
    (h : finalizeMigration st c = .ok st') : BShape st st' := by
  unfold finalizeMigration at h
  split at h
  · exact Except.noConfusion h
  · rename_i cm hcm
    split at h
    · exact Except.noConfusion h
    · rename_i cp hcp
      split at h
      · exact Except.noConfusion h
      · rename_i cpm hcpm
        dsimp only at h
        split at h
        · exact Except.noConfusion h
        · rename_i cm1 hcm1
          injection h with e
          subst e
          exact BShape_trans (BShape_setCam hcpm _) (BShape_setCam hcm1 _)

theorem finalizeMigration_target {st : BState} {c : Nat} {st' : BState}
    (h : finalizeMigration st c = .ok st') (d : Nat) (hd : d ≠ c) :
    (getCam st' d).map CamB.target = (getCam st d).map CamB.target := by
  unfold finalizeMigration at h
  split at h
  · exact Except.noConfusion h
  · rename_i cm hcm
    split at h
    · exact Except.noConfusion h
    · rename_i cp hcp
      split at h
      · exact Except.noConfusion h
      · rename_i cpm hcpm
        dsimp only at h
        split at h
        · exact Except.noConfusion h
        · rename_i cm1 hcm1
          injection h with e
          subst e
          rw [getCam_setCam_ne _ _ _ _ (Ne.symm hd)]
          by_cases hdc : d = cp
          · subst hdc
            rw [getCam_setCam_self, hcpm]
            rfl
          · rw [getCam_setCam_ne _ _ _ _ (Ne.symm hdc)]

/-- **C8** (confirmed).  `CyclicalThing._migrate` on the `'target'`
reference while a migration is active (`_MIGRATED` true): a second request
for the same attribute (its name already in `_MIGRATIONS`, i.e.
`migTarget.isSome`) raises the explicit `alreadyMigrated` error with the
state untouched; a first request is resolved against the already-created
copy — the call allocates nothing (`nextB` and the camera count are
unchanged for every successful run) and the existing copy's `target` is
rewired to the requested reference. -/
theorem migrate_second_target_fails_first_rewires :
    (∀ (fuel : Nat) (st : BState) (c ref : Nat) (ig : Bool) (cm : CamB),
      getCam st c = some cm → cm.migrated = true → cm.migTarget.isSome = true →
      migrateCam fuel st c .targetRef ref ig = .error (.alreadyMigrated, st)) ∧
    (∀ (fuel : Nat) (st : BState) (c cp ref : Nat) (ig : Bool) (cm : CamB) (st' : BState),
      getCam st c = some cm → cm.migrated = true → cm.migTarget = none →
      cm.copyId = some cp → cp ≠ c →
      migrateCam fuel st c .targetRef ref ig = .ok st' →
      st'.nextB = st.nextB ∧ st'.camsB.length = st.camsB.length ∧
      ∃ cpm', getCam st' cp = some cpm' ∧ cpm'.target = some ref) := by
  constructor
  · intro fuel st c ref ig cm hcm hmig htgt
    simp [migrateCam, hcm, hmig, htgt]
  · intro fuel st c cp ref ig cm st' hcm hmig htgt hcp hne h
    unfold migrateCam at h
    rw [hcm] at h
    dsimp only at h
    rw [hmig, htgt, hcp] at h
    simp only [eq_self_iff_true, if_true, Option.isSome_none, Bool.false_eq_true,
      if_false] at h
    split at h
    · exact Except.noConfusion h
    · rename_i cpm hcpm
      split at h
      · exact Except.noConfusion h
      · rename_i st3 hst3
        split at h
        · exact Except.noConfusion h
        · rename_i cpm3 hcpm3
          have htgt3 : cpm3.target = some ref := by
            obtain ⟨cmx, hcmx, hcmxt⟩ :=
              camSetattrTarget_ok_target fuel _ cp (some ref) st3 hst3
            rw [hcpm3] at hcmx
            injection hcmx with e
            subst e
            exact hcmxt
          have hshape4 : BShape st (setCam st3 cp { cpm3 with ignore := cpm.ignore }) :=
            BShape_trans (BShape_trans (BShape_trans
              (BShape_setCam hcm ⟨cm.parentC, cm.target, true, cm.migParent,
                some ref, some cp, cm.ignore⟩)
              (BShape_setCam hcpm ⟨cpm.parentC, cpm.target, cpm.migrated,
                cpm.migParent, cpm.migTarget, cpm.copyId, ig⟩))
              ((bcluster_shape fuel).2.1 _ _ _ _ hst3))
              (BShape_setCam hcpm3 ⟨cpm3.parentC, cpm3.target, cpm3.migrated,
                cpm3.migParent, cpm3.migTarget, cpm3.copyId, cpm.ignore⟩)
          split at h
          · exact Except.noConfusion h
          · rename_i cm4 hcm4
            split at h
            · have hfs := finalizeMigration_shape h
              refine ⟨hfs.1.trans hshape4.1, hfs.2.trans hshape4.2, ?_⟩
              have hmt := finalizeMigration_target h cp hne
              rw [getCam_setCam_self] at hmt
              cases hx : getCam st' cp with
              | none => rw [hx] at hmt; simp at hmt
              | some y =>
                rw [hx] at hmt
                simp only [Option.map_some'] at hmt
                injection hmt with e
                exact ⟨y, rfl, e.trans htgt3⟩
            · injection h with e
              subst e
              exact ⟨hshape4.1, hshape4.2,
                ⟨{ cpm3 with ignore := cpm.ignore }, getCam_setCam_self _ _ _, htgt3⟩⟩

/-- Witness for `migrate_second_target_fails_first_rewires`: on the
mid-migration state `c8Dup` a repeated `'target'` request raises, and on
`c8St` the first `'target'` request rewires the existing copy (camera `4`)
to body `1` without allocating. -/
theorem migrate_second_target_fails_first_rewires_witness :
    migrateCam 6 c8Dup 3 .targetRef 1 false = .error (.alreadyMigrated, c8Dup) ∧
    migrateCam 6 c8St 3 .targetRef 1 false = .ok c8Final ∧
    (c8Final.nextB = c8St.nextB ∧ c8Final.camsB.length = c8St.camsB.length ∧
      ∃ cpm', getCam c8Final 4 = some cpm' ∧ cpm'.target = some 1) := by
  refine ⟨?_, rfl, ?_⟩
  · exact migrate_second_target_fails_first_rewires.1 6 c8Dup 3 1 false
      ⟨some 1, none, true, some 2, some 1, some 4, false⟩ rfl rfl rfl
  · exact migrate_second_target_fails_first_rewires.2 6 c8St 3 4 1 false
      ⟨some 1, none, true, some 2, none, some 4, false⟩ c8Final rfl rfl rfl rfl
      (by decide) rfl

/-- **C8, counterexample.**  The claim extends the guard to every reference
attribute, but a repeated `'parent'` request during an active migration does
not fail: on `c8St` (whose camera `3` has already migrated `'parent'`, to
body `2`) a second `'parent'` request silently finalizes the pending
migration and allocates a **second** copy — `nextB` and the camera count
both grow — leaving the first copy (camera `4`) abandoned with no target.
-/
theorem migrate_second_parent_allocates_again :
    (∃ cm, getCam c8St 3 = some cm ∧ cm.migrated = true ∧ cm.migParent = some 2) ∧
    ∃ st', migrateCam 8 c8St 3 .parentRef 2 false = .ok st' ∧
      st'.nextB = c8St.nextB + 1 ∧ st'.camsB.length = c8St.camsB.length + 1 :=
  ⟨⟨_, rfl, rfl, rfl⟩, _, rfl, rfl, rfl⟩


/-! ## C9 : template immutability under `attach(copy=True)`

The development tracks a single heap binding — the template's — through the
deep copy and the insertion: every mutation of `attach(item, copy=True)`
happens at the receiver, at freshly allocated ids, or is the vacuous
`detach` of a fresh id from an old node. -/

theorem assocSet_self_eq {α : Type} (m : List (Nat × α)) (k : Nat) {v : α}
    (h : assocFind m k = some v) : assocSet m k v = m := by
  induction m with
  | nil => simp [assocFind] at h
  | cons p rest ih =>
    by_cases hk : p.1 = k
    · cases p with
      | mk k' v' =>
        simp only at hk
        subst hk
        simp only [assocFind, if_pos] at h
        injection h with h
        subst h
        simp [assocSet]
    · simp only [assocFind, hk, if_false] at h
      simp [assocSet, hk, ih h]

theorem assocFind_append_single {α : Type} (m : List (Nat × α)) (a : Nat) (v : α)
    (k : Nat) (h : a ≠ k) : assocFind (m ++ [(a, v)]) k = assocFind m k := by
  rw [assocFind_append]
  cases hm : assocFind m k with
  | some w => rfl
  | none => simp [assocFind, h]

theorem detachRoles_absent (item ik : Nat) (roles : List Role)
    (h : ∀ r ∈ roles, item ∉ r.children) :
    detachRoles item ik roles = (roles, false) := by
  induction roles with
  | nil => rfl
  | cons r rest ih =>
    have hr : (r.children.contains item) = false := by
      simpa using h r (by simp)
    have hcond : (r.accepts.contains ik && r.children.contains item) = false := by
      rw [hr, Bool.and_false]
    have hrest := ih (fun r' hr' => h r' (by simp [hr']))
    unfold detachRoles at hrest ⊢
    simp only [Prod.mk.injEq] at hrest
    simp only [List.map_cons, List.any_cons, hcond, Bool.false_eq_true, if_false,
      Bool.false_or, Prod.mk.injEq, List.cons.injEq]
    exact ⟨⟨trivial, hrest.1⟩, hrest.2⟩

theorem detachOne_keepsT (h : AHeap) (p item T : Nat) (tn : ANode)
    (hT : assocFind h T = some tn) (hit : item ≠ T)
    (hno : ∀ r ∈ tn.roles, item ∉ r.children) :
    assocFind (hRes (detachOne h p item)) T = some tn := by
  by_cases hp : p = T
  · subst hp
    unfold detachOne
    rw [hT]
    split
    · rename_i pn itn hpn hitn
      injection hpn with hpn
      subst hpn
      rw [detachRoles_absent item itn.kind tn.roles hno]
      simp only [Bool.false_eq_true, if_false, hRes]
      rw [assocFind_set_self]
    · exact hT
  · unfold detachOne
    split
    · rename_i pn itn hpn hitn
      dsimp only
      split
      · split
        · rename_i itn1 hitn1
          dsimp only [hRes]
          rw [assocFind_set_ne _ _ _ _ hit, assocFind_set_ne _ _ _ _ hp]
          exact hT
        · dsimp only [hRes]
          rw [assocFind_set_ne _ _ _ _ hp]
          exact hT
      · dsimp only [hRes]
        rw [assocFind_set_ne _ _ _ _ hp]
        exact hT
    · exact hT

theorem detachA_keepsT (h : AHeap) (q item T : Nat) (tn : ANode)
    (hT : assocFind h T = some tn) (hit : item ≠ T)
    (hno : ∀ r ∈ tn.roles, item ∉ r.children) :
    assocFind (hRes (detachA h q [item])) T = some tn := by
  unfold detachA
  split
  · exact hT
  · exact hT
  · unfold detachItems
    split
    · rename_i e he
      have hx := detachOne_keepsT h q item T tn hT hit hno
      rw [he] at hx
      exact hx
    · rename_i h' he
      have hx := detachOne_keepsT h q item T tn hT hit hno
      rw [he] at hx
      exact hx

theorem attachCommon_keepsT (h : AHeap) (recv c T : Nat) (tn : ANode)
    (hT : assocFind h T = some tn) (hrecv : recv ≠ T) (hc : c ≠ T)
    (hno : ∀ r ∈ tn.roles, c ∉ r.children) :
    assocFind (hRes (attachCommon h recv c)) T = some tn := by
  unfold attachCommon
  split
  · exact hT
  · rename_i cn hcn
    dsimp only
    split
    · rename_i e he
      cases hpa : cn.parentA with
      | none =>
        rw [hpa] at he
        dsimp only at he
        exact Except.noConfusion he
      | some q =>
        rw [hpa] at he
        dsimp only at he
        have hx := detachA_keepsT h q c T tn hT hc hno
        rw [he] at hx
        exact hx
    · rename_i h1 he
      have hT1 : assocFind h1 T = some tn := by
        cases hpa : cn.parentA with
        | none =>
          rw [hpa] at he
          injection he with he
          subst he
          exact hT
        | some q =>
          rw [hpa] at he
          dsimp only at he
          have hx := detachA_keepsT h q c T tn hT hc hno
          rw [he] at hx
          exact hx
      split
      · exact hT1
      · rename_i rn1 hrn1
        split
        · exact hT1
        · split
          · exact hT1
          · rename_i roles' hins
            split
            · rename_i cn2 hcn2
              dsimp only [hRes]
              rw [assocFind_set_ne _ _ _ _ hc, assocFind_set_ne _ _ _ _ hrecv]
              exact hT1
            · dsimp only [hRes]
              rw [assocFind_set_ne _ _ _ _ hrecv]
              exact hT1

theorem attachNoCopy_keepsT (h : AHeap) (recv c T : Nat) (tn : ANode)
    (hT : assocFind h T = some tn) (hrecv : recv ≠ T) (hc : c ≠ T)
    (hno : ∀ r ∈ tn.roles, c ∉ r.children) :
    assocFind (hRes (attachNoCopy h recv c)) T = some tn := by
  unfold attachNoCopy
  split
  · exact hT
  · split
    · exact hT
    · exact attachCommon_keepsT h recv c T tn hT hrecv hc hno

theorem attachKidsA_keepsT (T : Nat) (tn : ANode) (newId : Nat)
    (hnew : newId ≠ T) :
    ∀ (kids : List Nat) (h : AHeap), assocFind h T = some tn →
      (∀ c ∈ kids, c ≠ T ∧ ∀ r ∈ tn.roles, c ∉ r.children) →
      assocFind (hRes (attachKidsA h newId kids)) T = some tn := by
  intro kids
  induction kids with
  | nil =>
    intro h hT _
    exact hT
  | cons c rest ih =>
    intro h hT hkids
    have hc := hkids c (by simp)
    unfold attachKidsA
    split
    · rename_i e he
      have hx := attachNoCopy_keepsT h newId c T tn hT hnew hc.1 hc.2
      rw [he] at hx
      exact hx
    · rename_i h' he
      have hx := attachNoCopy_keepsT h newId c T tn hT hnew hc.1 hc.2
      rw [he] at hx
      exact ih h' hx (fun c' hc' => hkids c' (by simp [hc']))

theorem copyKidsA_keeps (T : Nat) (tn : ANode)
    (copy : AState → Nat → Except (AErr × AState) (AState × Nat))
    (hcopy : ∀ st n, TInv T tn st →
      TInv T tn (stResN (copy st n)) ∧ st.next ≤ (stResN (copy st n)).next ∧
      ∀ st' cid, copy st n = .ok (st', cid) → st.next ≤ cid) :
    ∀ (l : List Nat) (st : AState), TInv T tn st →
      TInv T tn (stResL (copyKidsA copy st l)) ∧
      st.next ≤ (stResL (copyKidsA copy st l)).next ∧
      ∀ st' ids, copyKidsA copy st l = .ok (st', ids) → ∀ id ∈ ids, st.next ≤ id := by
  intro l
  induction l with
  | nil =>
    intro st hI
    refine ⟨hI, le_refl _, ?_⟩
    intro st' ids hok
    injection hok with hok
    injection hok with ha hb
    intro id hid
    rw [← hb] at hid
    cases hid
  | cons c rest ih =>
    intro st hI
    unfold copyKidsA
    split
    · rename_i e he
      have h1 := hcopy st c hI
      rw [he] at h1
      exact ⟨h1.1, h1.2.1, fun st' ids hok => by cases hok⟩
    · rename_i st1 cid hp
      have h1 := hcopy st c hI
      rw [hp] at h1
      have hcid : st.next ≤ cid := h1.2.2 st1 cid rfl
      split
      · rename_i e2 he2
        have h2 := ih st1 h1.1
        rw [he2] at h2
        exact ⟨h2.1, le_trans h1.2.1 h2.2.1, fun st' ids hok => by cases hok⟩
      · rename_i st2 ids hp2
        have h2 := ih st1 h1.1
        rw [hp2] at h2
        refine ⟨h2.1, le_trans h1.2.1 h2.2.1, ?_⟩
        intro st' ids' hok
        injection hok with hok
        injection hok with ha hb
        intro id hid
        rw [← hb] at hid
        cases hid with
        | head => exact hcid
        | tail _ hmem => exact le_trans h1.2.1 (h2.2.2 st2 ids rfl id hmem)

theorem copyRolesA_keeps (T : Nat) (tn : ANode)
    (copy : AState → Nat → Except (AErr × AState) (AState × Nat))
    (hcopy : ∀ st n, TInv T tn st →
      TInv T tn (stResN (copy st n)) ∧ st.next ≤ (stResN (copy st n)).next ∧
      ∀ st' cid, copy st n = .ok (st', cid) → st.next ≤ cid) :
    ∀ (l : List Role) (st : AState), TInv T tn st →
      TInv T tn (stResL (copyRolesA copy st l)) ∧
      st.next ≤ (stResL (copyRolesA copy st l)).next ∧
      ∀ st' ids, copyRolesA copy st l = .ok (st', ids) → ∀ id ∈ ids, st.next ≤ id := by
  intro l
  induction l with
  | nil =>
    intro st hI
    refine ⟨hI, le_refl _, ?_⟩
    intro st' ids hok
    injection hok with hok
    injection hok with ha hb
    intro id hid
    rw [← hb] at hid
    cases hid
  | cons r rest ih =>
    intro st hI
    unfold copyRolesA
    split
    · rename_i e he
      have h1 := copyKidsA_keeps T tn copy hcopy r.children st hI
      rw [he] at h1
      exact ⟨h1.1, h1.2.1, fun st' ids hok => by cases hok⟩
    · rename_i st1 ids1 hp
      have h1 := copyKidsA_keeps T tn copy hcopy r.children st hI
      rw [hp] at h1
      split
      · rename_i e2 he2
        have h2 := ih st1 h1.1
        rw [he2] at h2
        exact ⟨h2.1, le_trans h1.2.1 h2.2.1, fun st' ids hok => by cases hok⟩
      · rename_i st2 ids2 hp2
        have h2 := ih st1 h1.1
        rw [hp2] at h2
        refine ⟨h2.1, le_trans h1.2.1 h2.2.1, ?_⟩
        intro st' ids' hok
        injection hok with hok
        injection hok with ha hb
        intro id hid
        rw [← hb] at hid
        rcases List.mem_append.1 hid with hmem | hmem
        · exact h1.2.2 st1 ids1 rfl id hmem
        · exact le_trans h1.2.1 (h2.2.2 st2 ids2 rfl id hmem)

theorem copyA_tail_keeps (T : Nat) (tn : ANode) (st1 : AState) (base : ANode)
    (kids : List Nat)
    (hT1 : assocFind st1.heap T = some tn) (hTlt1 : T < st1.next)
    (hch1 : ∀ r ∈ tn.roles, ∀ c ∈ r.children, c < st1.next)
    (hkids : ∀ c ∈ kids, c ≠ T ∧ ∀ r ∈ tn.roles, c ∉ r.children) :
    ∀ res : Except (AErr × AState) (AState × Nat),
      (match attachKidsA (st1.heap ++ [(st1.next, base)]) st1.next kids with
        | .error e => Except.error (e.1, ({ heap := e.2, next := st1.next + 1 } : AState))
        | .ok h2 => Except.ok (({ heap := h2, next := st1.next + 1 } : AState), st1.next)) = res →
      TInv T tn (stResN res) ∧ st1.next ≤ (stResN res).next ∧
      ∀ st2 cid, res = .ok (st2, cid) → st1.next ≤ cid := by
  have hT2 : assocFind (st1.heap ++ [(st1.next, base)]) T = some tn := by
    rw [assocFind_append_single _ _ _ _ (ne_of_gt hTlt1)]
    exact hT1
  have hx := attachKidsA_keepsT T tn st1.next (ne_of_gt hTlt1) kids
    (st1.heap ++ [(st1.next, base)]) hT2 hkids
  intro res hres
  split at hres
  · rename_i e he
    rw [he] at hx
    subst hres
    refine ⟨⟨hx, Nat.lt_succ_of_lt hTlt1, ?_⟩, Nat.le_succ _, ?_⟩
    · intro r hr c hc
      exact Nat.lt_succ_of_lt (hch1 r hr c hc)
    · intro st2 cid hok
      cases hok
  · rename_i h2 he
    rw [he] at hx
    subst hres
    refine ⟨⟨hx, Nat.lt_succ_of_lt hTlt1, ?_⟩, Nat.le_succ _, ?_⟩
    · intro r hr c hc
      exact Nat.lt_succ_of_lt (hch1 r hr c hc)
    · intro st2 cid hok
      injection hok with hok
      injection hok with ha hb
      rw [← hb]

theorem copyA_keeps (T : Nat) (tn : ANode) :
    ∀ (fuel : Nat) (st : AState) (n : Nat), TInv T tn st →
      TInv T tn (stResN (copyA fuel st n)) ∧ st.next ≤ (stResN (copyA fuel st n)).next ∧
      ∀ st' cid, copyA fuel st n = .ok (st', cid) → st.next ≤ cid := by
  intro fuel
  induction fuel with
  | zero =>
    intro st n hI
    exact ⟨hI, le_refl _, fun st' cid hok => by cases hok⟩
  | succ f ih =>
    intro st n hI
    unfold copyA
    split
    · exact ⟨hI, le_refl _, fun st' cid hok => by cases hok⟩
    · rename_i nd hnd
      split
      · rename_i e he
        have h1 := copyRolesA_keeps T tn (copyA f) ih nd.roles st hI
        rw [he] at h1
        exact ⟨h1.1, h1.2.1, fun st' cid hok => by cases hok⟩
      · rename_i st1 kids hp
        have h1 := copyRolesA_keeps T tn (copyA f) ih nd.roles st hI
        rw [hp] at h1
        obtain ⟨⟨hT1, hTlt1, hch1⟩, hmono1, hkid⟩ := h1
        have hkids : ∀ c ∈ kids, c ≠ T ∧ ∀ r ∈ tn.roles, c ∉ r.children := by
          intro c hc
          have hcb : st.next ≤ c := hkid st1 kids rfl c hc
          constructor
          · exact ne_of_gt (lt_of_lt_of_le hI.2.1 hcb)
          · intro r hr hmem
            exact absurd (hI.2.2 r hr c hmem) (Nat.not_lt.2 hcb)
        have htail := copyA_tail_keeps T tn st1
          { kind := nd.kind, parentA := nd.parentA,
            roles := nd.roles.map (fun r => { r with children := [] }),
            isWorld := nd.isWorld, builtA := false, payload := nd.payload }
          kids hT1 hTlt1
          (fun r hr c hc => lt_of_lt_of_le (hI.2.2 r hr c hc) hmono1) hkids _ rfl
        refine ⟨htail.1, le_trans hmono1 htail.2.1, ?_⟩
        intro st' cid hok
        exact le_trans hmono1 (htail.2.2 st' cid hok)

theorem attachOneA_keepsT (T : Nat) (tn : ANode) (fuel : Nat) (st : AState)
    (recv : Nat) (hI : TInv T tn st) (hR : recv ≠ T) :
    TInv T tn (stRes (attachOneA fuel st recv T true)) := by
  unfold attachOneA
  split
  · split
    · rename_i e he
      have hc := copyA_keeps T tn fuel st T hI
      rw [he] at hc
      exact hc.1
    · rename_i st1 cid hp
      have hc := copyA_keeps T tn fuel st T hI
      rw [hp] at hc
      have hcid : st.next ≤ cid := hc.2.2 st1 cid rfl
      have hcT : cid ≠ T := ne_of_gt (lt_of_lt_of_le hI.2.1 hcid)
      have hno : ∀ r ∈ tn.roles, cid ∉ r.children := by
        intro r hr hmem
        exact absurd (hI.2.2 r hr cid hmem) (Nat.not_lt.2 hcid)
      have hAC := attachCommon_keepsT st1.heap recv cid T tn hc.1.1 hR hcT hno
      split
      · rename_i e2 he2
        rw [he2] at hAC
        exact ⟨hAC, hc.1.2.1, hc.1.2.2⟩
      · rename_i h2 he2
        rw [he2] at hAC
        exact ⟨hAC, hc.1.2.1, hc.1.2.2⟩
  · rename_i hfalse
    exact absurd rfl hfalse

theorem attachRepeat_keepsT (T : Nat) (tn : ANode) :
    ∀ (n fuel : Nat) (st : AState) (recv : Nat), TInv T tn st → recv ≠ T →
      TInv T tn (attachRepeat fuel recv T n st) := by
  intro n
  induction n with
  | zero =>
    intro fuel st recv hI _
    exact hI
  | succ k ih =>
    intro fuel st recv hI hR
    unfold attachRepeat
    split
    · rename_i st1 he
      have hx := attachOneA_keepsT T tn fuel st recv hI hR
      rw [he] at hx
      exact ih fuel st1 recv hx hR
    · rename_i e he
      have hx := attachOneA_keepsT T tn fuel st recv hI hR
      rw [he] at hx
      exact ih fuel e.2 recv hx hR

/-- **C9** (corrected).  A template `T` (a parentless node) attached with
`copy=True` any number of times to a receiver **other than `T` itself** is
left exactly as it was: its heap binding — field values, parent edge and
role collections — is unchanged after `n` successive `attach(T, copy=True)`
calls, whether each call succeeds or raises.  (The id-boundedness
hypotheses say the state does not already mention unallocated ids, which
every reachable state satisfies.) -/
theorem template_attach_copy_keeps_template :
    ∀ (fuel n : Nat) (st : AState) (recv T : Nat) (tn : ANode),
      assocFind st.heap T = some tn → tn.parentA = none →
      T < st.next → (∀ r ∈ tn.roles, ∀ c ∈ r.children, c < st.next) →
      recv ≠ T →
      assocFind (attachRepeat fuel recv T n st).heap T = some tn :=
  fun fuel n st recv T tn hT _hpar hlt hch hR =>
    (attachRepeat_keepsT T tn n fuel st recv ⟨hT, hlt, hch⟩ hR).1

/-- Witness for `template_attach_copy_keeps_template`: a two-node template
(body `0` holding child `1`) attached twice into receiver `2` — two fresh
deep copies appear, while the template's binding is untouched. -/
theorem template_attach_copy_keeps_template_witness :
    assocFind (attachRepeat 6 2 0 2
      ⟨[(0, { kind := 5, parentA := none, roles := [{ accepts := [6], isTendonRole := false, children := [1] }], isWorld := false, builtA := false, payload := 3 }),
        (1, { kind := 6, parentA := some 0, roles := [], isWorld := false, builtA := false, payload := 4 }),
        (2, { kind := 0, parentA := none, roles := [{ accepts := [5], isTendonRole := false, children := [] }], isWorld := false, builtA := false, payload := 0 })], 3⟩).heap 0 =
      some { kind := 5, parentA := none, roles := [{ accepts := [6], isTendonRole := false, children := [1] }], isWorld := false, builtA := false, payload := 3 } :=
  template_attach_copy_keeps_template 6 2
    ⟨[(0, { kind := 5, parentA := none, roles := [{ accepts := [6], isTendonRole := false, children := [1] }], isWorld := false, builtA := false, payload := 3 }),
      (1, { kind := 6, parentA := some 0, roles := [], isWorld := false, builtA := false, payload := 4 }),
      (2, { kind := 0, parentA := none, roles := [{ accepts := [5], isTendonRole := false, children := [] }], isWorld := false, builtA := false, payload := 0 })], 3⟩
    2 0 { kind := 5, parentA := none, roles := [{ accepts := [6], isTendonRole := false, children := [1] }], isWorld := false, builtA := false, payload := 3 }
    rfl rfl (by decide) (by decide) (by decide)

/-- **C9, counterexample.**  The claim quantifies over *any* receiver; but
`T.attach(T, copy=True)` — the receiver being the template itself — mutates
`T`: the copy is inserted into `T`'s own role collection, so after the call
`T`'s binding has changed (children `[]` became `[1]`).  The template is
parentless and the state well-formed, so only the receiver distinguishes
this from the proved statement. -/
theorem template_attach_self_copy_mutates :
    attachRepeat 3 0 0 1
        ⟨[(0, { kind := 0, parentA := none, roles := [{ accepts := [0], isTendonRole := false, children := [] }], isWorld := false, builtA := false, payload := 7 })], 1⟩ =
      ⟨[(0, { kind := 0, parentA := none, roles := [{ accepts := [0], isTendonRole := false, children := [1] }], isWorld := false, builtA := false, payload := 7 }),
        (1, { kind := 0, parentA := some 0, roles := [{ accepts := [0], isTendonRole := false, children := [] }], isWorld := false, builtA := false, payload := 7 })], 2⟩ ∧
    assocFind (attachRepeat 3 0 0 1
        ⟨[(0, { kind := 0, parentA := none, roles := [{ accepts := [0], isTendonRole := false, children := [] }], isWorld := false, builtA := false, payload := 7 })], 1⟩).heap 0 ≠
      some { kind := 0, parentA := none, roles := [{ accepts := [0], isTendonRole := false, children := [] }], isWorld := false, builtA := false, payload := 7 } :=
  ⟨rfl, by decide⟩


/-! ## C7 : copying past an outside reference -/

/-- **C7** (corrected).  Copying a subtree that holds a cross-reference
whose target lies outside the copied region succeeds as a whole, and in the
copy that reference is absent: the camera copy starts with no `target` and
is never rewired, because the targeted body is not part of the copy and its
`_migrate_children` never runs.  No diagnostic is emitted — the diagnostics
counter is carried through unchanged for every starting value `d` — and the
original camera is left with stale migration bookkeeping (`migrated`,
`copyId`, `migParent` set), its migration never finalized. -/
theorem copy_outside_target_drops_silently :
    ∀ d : Nat,
      copyBodyB 8 (c7St d) 1 = .ok (c7Res d, 4) ∧
      getCam (c7Res d) 5 = some ⟨some 4, none, false, none, none, none, false⟩ ∧
      (c7Res d).diags = (c7St d).diags ∧
      getCam (c7Res d) 3 = some ⟨some 1, some 2, true, some 4, none, some 5, false⟩ :=
  fun _ => ⟨rfl, rfl, rfl, rfl⟩

/-- **C7, counterexample.**  The claim says a diagnostic is emitted when the
outside reference is dropped; but the run emits nothing: starting from zero
recorded diagnostics, the successful copy ends with zero recorded
diagnostics (no statement in `NodeThing.copy` / `CyclicalThing._decouple`
prints, warns or logs). -/
theorem copy_outside_target_no_diagnostic :
    copyBodyB 8 (c7St 0) 1 = .ok (c7Res 0, 4) ∧
    (c7St 0).diags = 0 ∧ (c7Res 0).diags = 0 :=
  ⟨rfl, rfl, rfl⟩


/-! ## C3 : one copy per cross-referenced node, all holders rewired

The `_shape` lemmas bound what the migration machinery allocates; the
`c3D_*` / `c3C_*` equations evaluate the diamond and cycle copies stage by
stage (each stage is a small kernel computation, chained by rewriting). -/

theorem attachCamNoCopy_shape {fuel : Nat} {st : BState} {recv cp : Nat} {st' : BState}
    (h : attachCamNoCopy fuel st recv cp = .ok st') : BShape st st' := by
  unfold attachCamNoCopy at h
  split at h
  · exact Except.noConfusion h
  · rename_i cm hcm
    dsimp only at h
    split at h
    · exact Except.noConfusion h
    · rename_i st1 hst1
      have h1 : BShape st st1 := by
        split at hst1
        · rename_i q
          exact ((bcluster_shape fuel).2.2.2.2.2.1) _ _ _ _ hst1
        · injection hst1 with e
          subst e
          exact BShape_refl _
      split at h
      · exact Except.noConfusion h
      · rename_i rb hrb
        split at h
        · exact Except.noConfusion h
        · rename_i cm2 hcm2
          injection h with e
          subst e
          exact BShape_trans (BShape_trans h1 (BShape_setBody _ _ _)) (BShape_setCam hcm2 _)

theorem startMigration_allocates_one {fuel : Nat} {st : BState} {c ref : Nat} {st' : BState}
    (h : startMigration fuel st c ref = .ok st') :
    st'.nextB = st.nextB + 1 ∧ st'.camsB.length = st.camsB.length + 1 := by
  unfold startMigration at h
  split at h
  · exact Except.noConfusion h
  · rename_i cm hcm
    dsimp only at h
    split at h
    · exact Except.noConfusion h
    · rename_i cpm hcpm
      split at h
      · exact Except.noConfusion h
      · rename_i cm3 hcm3
        split at h
        · exact Except.noConfusion h
        · rename_i st5 hst5
          have hfindc : getCam ({ st with
              camsB := st.camsB ++ [(st.nextB,
                { parentC := cm.parentC, target := none, migrated := false,
                  migParent := none, migTarget := none, copyId := none,
                  ignore := false })],
              nextB := st.nextB + 1 } : BState) c = some cm :=
            assocFind_append_left _ hcm
          have a1 := BShape_setCam hfindc { cm with copyId := some st.nextB }
          have a2 := BShape_setCam hcpm { cpm with ignore := true }
          have a3 := BShape_setCam hcm3 { cm3 with migrated := true }
          have hpre := BShape_trans (BShape_trans (BShape_trans a1 a2) a3)
            (attachCamNoCopy_shape hst5)
          split at h
          · exact Except.noConfusion h
          · rename_i cm5 hcm5
            split at h
            · rename_i tr htr
              split at h
              · exact Except.noConfusion h
              · rename_i st6 hst6
                have h6 : BShape st5 st6 := (bcluster_shape fuel).2.1 _ _ _ _ hst6
                split at h
                · exact Except.noConfusion h
                · rename_i cm6 hcm6
                  split at h
                  · exact Except.noConfusion h
                  · rename_i cpm7 hcpm7
                    injection h with e
                    subst e
                    have hfin : BShape st5
                        (setCam (setCam st6 c { cm6 with migTarget := some tr }) st.nextB
                          { cpm7 with ignore := false }) :=
                      BShape_trans (BShape_trans h6 (BShape_setCam hcm6 _))
                        (BShape_setCam hcpm7 _)
                    have htot := BShape_trans hpre hfin
                    constructor
                    · rw [htot.1]
                    · rw [htot.2]
                      simp
            · split at h
              · exact Except.noConfusion h
              · rename_i cpm7 hcpm7
                injection h with e
                subst e
                have hfin : BShape st5
                    (setCam (setCam st5 c { cm5 with migParent := some ref }) st.nextB
                      { cpm7 with ignore := false }) :=
                  BShape_trans (BShape_setCam hcm5 _) (BShape_setCam hcpm7 _)
                have htot := BShape_trans hpre hfin
                constructor
                · rw [htot.1]
                · rw [htot.2]
                  simp

theorem migrate_first_parent_allocates_one {fuel : Nat} {st : BState} {c ref : Nat}
    {ig : Bool} {cm : CamB} {st' : BState}
    (hcm : getCam st c = some cm) (hmig : cm.migrated = false)
    (h : migrateCam fuel st c .parentRef ref ig = .ok st') :
    st'.nextB = st.nextB + 1 ∧ st'.camsB.length = st.camsB.length + 1 := by
  unfold migrateCam at h
  rw [hcm] at h
  dsimp only at h
  rw [hmig] at h
  simp only [Bool.false_eq_true, if_false] at h
  split at h
  · exact Except.noConfusion h
  · rename_i st2 hst2
    have h2 := startMigration_allocates_one hst2
    split at h
    · exact Except.noConfusion h
    · rename_i cm2 hcm2
      split at h
      · have h3 := finalizeMigration_shape h
        exact ⟨h3.1.trans h2.1, h3.2.trans h2.2⟩
      · injection h with e
        subst e
        exact h2

theorem c3D_e1 : copyBodyB 7 { c3Diamond with copyRoot := some 0 } 1 = .ok (c3D1, 4) := rfl

theorem c3D_e2 : copyBodyB 7 c3D1 2 = .ok (c3D2, 6) := rfl

theorem c3D_e3 : attachBodyNoCopy 7 c3D3 7 4 = .ok c3D4 := rfl

theorem c3D_e4 : attachBodyNoCopy 7 c3D4 7 6 = .ok c3D5 := rfl

theorem c3D_k2 : copyKidsB (copyBodyB 7) c3D1 [2] = .ok (c3D2, [6]) := by
  unfold copyKidsB
  rw [c3D_e2]
  rfl

theorem c3D_k1 : copyKidsB (copyBodyB 7) { c3Diamond with copyRoot := some 0 } [1, 2] =
    .ok (c3D2, [4, 6]) := by
  unfold copyKidsB
  rw [c3D_e1]
  dsimp only
  rw [c3D_k2]

theorem c3D_a : attachBodyKids 7 7 c3D3 [4, 6] = .ok c3D5 := by
  unfold attachBodyKids
  rw [c3D_e3]
  dsimp only
  unfold attachBodyKids
  rw [c3D_e4]
  rfl


theorem c3D_run : copyBodyB 8 c3Diamond 0 = .ok (c3DiamondRes, 7) := by
  show copyBodyB (7 + 1) c3Diamond 0 = .ok (c3DiamondRes, 7)
  unfold copyBodyB
  rw [show getBody c3Diamond 0 = some ⟨none, [1, 2], [], []⟩ from rfl]
  dsimp only
  rw [show (if c3Diamond.copyRoot.isNone = true then { c3Diamond with copyRoot := some 0 }
      else c3Diamond) = { c3Diamond with copyRoot := some 0 } from rfl]
  rw [c3D_k1]
  dsimp only
  rw [show ({ c3D2 with bodiesB := c3D2.bodiesB ++ [(c3D2.nextB, ⟨none, [], [], []⟩)], nextB := c3D2.nextB + 1 } : BState) = c3D3 from rfl]
  rw [show c3D2.nextB = 7 from rfl, c3D_a]
  rfl

theorem c3C_e1 : copyBodyB 7 { c3Cycle with copyRoot := some 0 } 1 = .ok (c3C1, 5) := rfl

theorem c3C_e2 : copyBodyB 7 c3C1 2 = .ok (c3C2, 7) := rfl

theorem c3C_e3 : attachBodyNoCopy 7 c3C3 9 5 = .ok c3C4 := rfl

theorem c3C_e4 : attachBodyNoCopy 7 c3C4 9 7 = .ok c3C5 := rfl

theorem c3C_k2 : copyKidsB (copyBodyB 7) c3C1 [2] = .ok (c3C2, [7]) := by
  unfold copyKidsB
  rw [c3C_e2]
  rfl

theorem c3C_k1 : copyKidsB (copyBodyB 7) { c3Cycle with copyRoot := some 0 } [1, 2] =
    .ok (c3C2, [5, 7]) := by
  unfold copyKidsB
  rw [c3C_e1]
  dsimp only
  rw [c3C_k2]

theorem c3C_a : attachBodyKids 7 9 c3C3 [5, 7] = .ok c3C5 := by
  unfold attachBodyKids
  rw [c3C_e3]
  dsimp only
  unfold attachBodyKids
  rw [c3C_e4]
  rfl

theorem c3C_run : copyBodyB 8 c3Cycle 0 = .ok (c3CycleRes, 9) := by
  show copyBodyB (7 + 1) c3Cycle 0 = .ok (c3CycleRes, 9)
  unfold copyBodyB
  rw [show getBody c3Cycle 0 = some ⟨none, [1, 2], [], []⟩ from rfl]
  dsimp only
  rw [show (if c3Cycle.copyRoot.isNone = true then { c3Cycle with copyRoot := some 0 }
      else c3Cycle) = { c3Cycle with copyRoot := some 0 } from rfl]
  rw [c3C_k1]
  dsimp only
  rw [show ({ c3C2 with bodiesB := c3C2.bodiesB ++ [(c3C2.nextB, ⟨none, [], [], []⟩)], nextB := c3C2.nextB + 1 } : BState) = c3C3 from rfl]
  rw [show c3C2.nextB = 9 from rfl, c3C_a]
  rfl

/-- **C3** (confirmed).  Deep-copying a subtree in which one cyclical node
is referenced by several holders inside the copied region produces exactly
one copy of it, with every holder's copy rewired to that single copy; the
copy terminates even on a true reference cycle.  Conjunct one is the
general allocation bound: the *first* `'parent'` migration request for an
unmigrated camera allocates exactly one object (one new id, one new heap
entry) — together with the re-migration guard this pins the number of
copies per camera to one.  Conjunct two runs the diamond: the whole-tree
copy succeeds, exactly one new camera exists, the copied parent holds it
and its `target` is the copied target body, whose back-reference list holds
exactly the one copy.  Conjunct three runs the two-camera reference cycle:
the copy terminates, each camera gains exactly one copy, and the two copies
are cross-rewired onto the copied bodies; its last equation records a side
effect of `_start_migration`'s shadowed post-loop recording — camera `4`,
whose `'parent'` migration arrived while a `'target'` migration was already
saved, is left mid-migration (`_MIGRATED` set, `'parent'` never recorded,
never finalized), though its copy is complete and correctly rewired. -/
theorem migration_dedup_single_copy :
    (∀ (fuel : Nat) (st : BState) (c ref : Nat) (ig : Bool) (cm : CamB) (st' : BState),
      getCam st c = some cm → cm.migrated = false →
      migrateCam fuel st c .parentRef ref ig = .ok st' →
      st'.nextB = st.nextB + 1 ∧ st'.camsB.length = st.camsB.length + 1) ∧
    (copyBodyB 8 c3Diamond 0 = .ok (c3DiamondRes, 7) ∧
     c3DiamondRes.camsB.length = c3Diamond.camsB.length + 1 ∧
     getCam c3DiamondRes 5 = some ⟨some 4, some 6, false, none, none, none, false⟩ ∧
     getBody c3DiamondRes 4 = some ⟨some 7, [], [5], []⟩ ∧
     getBody c3DiamondRes 6 = some ⟨some 7, [], [], [5]⟩) ∧
    (copyBodyB 8 c3Cycle 0 = .ok (c3CycleRes, 9) ∧
     c3CycleRes.camsB.length = c3Cycle.camsB.length + 2 ∧
     getCam c3CycleRes 6 = some ⟨some 5, some 7, false, none, none, none, false⟩ ∧
     getCam c3CycleRes 8 = some ⟨some 7, some 5, false, none, none, none, false⟩ ∧
     getCam c3CycleRes 4 = some ⟨some 2, some 1, true, none, some 5, some 8, false⟩) :=
  ⟨fun _ _ _ _ _ _ _ hcm hmig h => migrate_first_parent_allocates_one hcm hmig h,
   ⟨c3D_run, rfl, rfl, rfl, rfl⟩, ⟨c3C_run, rfl, rfl, rfl, rfl⟩⟩

/-- Witness for `migration_dedup_single_copy`: the first `'parent'`
migration of camera `3` onto body `4` allocates exactly one new camera. -/
theorem migration_dedup_single_copy_witness :
    migrateCam 8 c3W 3 .parentRef 4 false = .ok c3WRes ∧
    c3WRes.nextB = c3W.nextB + 1 ∧ c3WRes.camsB.length = c3W.camsB.length + 1 :=
  ⟨rfl, migration_dedup_single_copy.1 8 c3W 3 4 false
    ⟨some 1, some 2, false, none, none, none, false⟩ c3WRes rfl rfl rfl⟩

end MB
